import Mathlib

/-!
Shallow embedding of the ZeroBootloader core (SAMD21 secure boot loader):
the CRC-32 and SHA-256 routines and the Ed25519 verifier of
`src/crypto_ops.c`, the flash engine of the NVMCTRL `flash_ops.c` variant,
the minimal `strtoul` of `src/minimal_libc.c`, and the line/binary
protocol state machine (`protocol_init`, `handle_command`,
`protocol_process_char`).  Machine integers are modelled as `Nat` with an
explicit `% 2^w` wherever the C arithmetic wraps, `int64_t` values as
`Int`; byte arrays are `List Nat` whose elements are below 256.  Flash
and USB effects are modelled as an explicit event trace.
-/

namespace ZeroBoot

/-- `2^8`. -/
def U8 : Nat := 2 ^ 8

/-- `2^32`, the modulus of `uint32_t` (and of the target's 32-bit
`unsigned long`) arithmetic. -/
def U32 : Nat := 2 ^ 32

/-- `2^64`, the modulus of `uint64_t` arithmetic. -/
def U64 : Nat := 2 ^ 64

/-- `2^128`, the modulus of the `fe_u128` helper type. -/
def U128 : Nat := 2 ^ 128

/-- `APP_START_ADDRESS` from `src/boot_config.h` (0x2000). -/
def APP_START_ADDRESS : Nat := 0x2000

/-- `FLASH_SIZE` from `flash_ops.h`: 256 KiB. -/
def FLASH_SIZE : Nat := 256 * 1024

/-- `FLASH_PAGE_SIZE` from `flash_ops.h`. -/
def FLASH_PAGE_SIZE : Nat := 64

/-- `FLASH_ROW_SIZE = FLASH_PAGE_SIZE * 4` from `flash_ops.h`. -/
def FLASH_ROW_SIZE : Nat := FLASH_PAGE_SIZE * 4

/-- `APP_VALID_MAGIC` from `flash_ops.h`. -/
def APP_VALID_MAGIC : Nat := 0x55AA13F0

/-- ASCII codes of a Lean string: the byte view of a C string literal. -/
def ascii (s : String) : List Nat := s.toList.map Char.toNat

/-! ## CRC-32 (`crc32_update`, `crc32_finalize` in the protocol file) -/

/-- One shift/conditional-xor iteration of the bit-serial CRC loop. -/
def crc32_step (crc : Nat) : Nat :=
  if crc % 2 = 1 then (crc >>> 1) ^^^ 0xEDB88320 else crc >>> 1

/-- `crc32_update`: xor the data byte into the register, then eight
shift/conditional-xor iterations (polynomial 0xEDB88320). -/
def crc32_update (crc data : Nat) : Nat :=
  List.foldl (fun c _ => crc32_step c) (crc ^^^ data) (List.range 8)

/-- `crc32_finalize`: final xor with 0xFFFFFFFF. -/
def crc32_finalize (crc : Nat) : Nat := crc ^^^ 0xFFFFFFFF

/-! ## SHA-256 (`crypto_sha256_*` of `src/crypto_ops.c`) -/

/-- 32-bit rotate right of a word below `2^32`. -/
def rotr32 (x n : Nat) : Nat := ((x >>> n) ||| (x <<< (32 - n))) % U32

/-- FIPS 180-4 initial hash values `sha256_initial_state`. -/
def sha256_initial_state : List Nat :=
  [0x6A09E667, 0xBB67AE85, 0x3C6EF372, 0xA54FF53A,
   0x510E527F, 0x9B05688C, 0x1F83D9AB, 0x5BE0CD19]

/-- FIPS 180-4 round constants `sha256_k`. -/
def sha256_k : List Nat :=
  [0x428A2F98, 0x71374491, 0xB5C0FBCF, 0xE9B5DBA5,
   0x3956C25B, 0x59F111F1, 0x923F82A4, 0xAB1C5ED5,
   0xD807AA98, 0x12835B01, 0x243185BE, 0x550C7DC3,
   0x72BE5D74, 0x80DEB1FE, 0x9BDC06A7, 0xC19BF174,
   0xE49B69C1, 0xEFBE4786, 0x0FC19DC6, 0x240CA1CC,
   0x2DE92C6F, 0x4A7484AA, 0x5CB0A9DC, 0x76F988DA,
   0x983E5152, 0xA831C66D, 0xB00327C8, 0xBF597FC7,
   0xC6E00BF3, 0xD5A79147, 0x06CA6351, 0x14292967,
   0x27B70A85, 0x2E1B2138, 0x4D2C6DFC, 0x53380D13,
   0x650A7354, 0x766A0ABB, 0x81C2C92E, 0x92722C85,
   0xA2BFE8A1, 0xA81A664B, 0xC24B8B70, 0xC76C51A3,
   0xD192E819, 0xD6990624, 0xF40E3585, 0x106AA070,
   0x19A4C116, 0x1E376C08, 0x2748774C, 0x34B0BCB5,
   0x391C0CB3, 0x4ED8AA4A, 0x5B9CCA4F, 0x682E6FF3,
   0x748F82EE, 0x78A5636F, 0x84C87814, 0x8CC70208,
   0x90BEFFF9, 0xA4506CEB, 0xBEF9A3F7, 0xC67178F2]

/-- `SIG0` of the message schedule. -/
def sha256_sig0 (x : Nat) : Nat := rotr32 x 7 ^^^ rotr32 x 18 ^^^ (x >>> 3)

/-- `SIG1` of the message schedule. -/
def sha256_sig1 (x : Nat) : Nat := rotr32 x 17 ^^^ rotr32 x 19 ^^^ (x >>> 10)

/-- Big-endian 32-bit load of four consecutive bytes of `block` at `j`
(the `w[i]` initialisation loop). -/
def be32at (block : List Nat) (j : Nat) : Nat :=
  (block.getD j 0 <<< 24) ||| (block.getD (j + 1) 0 <<< 16) |||
    (block.getD (j + 2) 0 <<< 8) ||| block.getD (j + 3) 0

/-- The 64-entry message schedule `w` of `crypto_sha256_process_block`. -/
def sha256_schedule (block : List Nat) : List Nat :=
  List.foldl
    (fun w i =>
      w ++ [(sha256_sig1 (w.getD (i - 2) 0) + w.getD (i - 7) 0 +
             sha256_sig0 (w.getD (i - 15) 0) + w.getD (i - 16) 0) % U32])
    ((List.range 16).map (fun i => be32at block (4 * i)))
    (List.drop 16 (List.range 64))

/-- One compression round: state is the register list `[a,b,c,d,e,f,g,h]`. -/
def sha256_round (st : List Nat) (ki wi : Nat) : List Nat :=
  let a := st.getD 0 0
  let b := st.getD 1 0
  let c := st.getD 2 0
  let d := st.getD 3 0
  let e := st.getD 4 0
  let f := st.getD 5 0
  let g := st.getD 6 0
  let h := st.getD 7 0
  let ep1 := rotr32 e 6 ^^^ rotr32 e 11 ^^^ rotr32 e 25
  let ch := (e &&& f) ^^^ ((U32 - 1 - e) &&& g)
  let temp1 := (h + ep1 + ch + ki + wi) % U32
  let ep0 := rotr32 a 2 ^^^ rotr32 a 13 ^^^ rotr32 a 22
  let maj := (a &&& b) ^^^ (a &&& c) ^^^ (b &&& c)
  let temp2 := (ep0 + maj) % U32
  [(temp1 + temp2) % U32, a, b, c, (d + temp1) % U32, e, f, g]

/-- `crypto_sha256_process_block` acting on an explicit eight-word state. -/
def sha256_compress (hs : List Nat) (block : List Nat) : List Nat :=
  let w := sha256_schedule block
  let fin := List.foldl (fun st i => sha256_round st (sha256_k.getD i 0) (w.getD i 0))
    hs (List.range 64)
  List.zipWith (fun a b => (a + b) % U32) hs fin

/-- The SHA-256 context `sha_ctx`: working words, the filled prefix of the
64-byte partial-block buffer, and the total length (a wrapping `uint64_t`,
kept below `2^64`). -/
structure Sha256Ctx where
  h : List Nat
  buffer : List Nat
  total : Nat
  deriving Repr, DecidableEq

/-- `crypto_sha256_init`. -/
def crypto_sha256_init : Sha256Ctx :=
  { h := sha256_initial_state, buffer := [], total := 0 }

/-- The `while (len >= 64)` loop of `crypto_sha256_update`, with an
explicit fuel so the recursion is structural (each iteration strips 64
bytes and burns one unit of fuel, so `data.length` units always
suffice). -/
def sha256_blocks_go (hs : List Nat) (data : List Nat) : Nat → List Nat × List Nat
  | 0 => (hs, data)
  | fuel + 1 =>
    if 64 ≤ data.length then
      sha256_blocks_go (sha256_compress hs (data.take 64)) (data.drop 64) fuel
    else (hs, data)

/-- The `while (len >= 64)` loop of `crypto_sha256_update`: compress full
blocks, return the new state and the leftover tail. -/
def sha256_blocks (hs : List Nat) (data : List Nat) : List Nat × List Nat :=
  sha256_blocks_go hs data data.length

/-- `crypto_sha256_update`. -/
def crypto_sha256_update (ctx : Sha256Ctx) (data : List Nat) : Sha256Ctx :=
  if data.isEmpty then ctx
  else
    let total' := (ctx.total + data.length) % U64
    if ctx.buffer.isEmpty then
      let br := sha256_blocks ctx.h data
      { h := br.1, buffer := br.2, total := total' }
    else
      let space := 64 - ctx.buffer.length
      let tk := min data.length space
      let buf' := ctx.buffer ++ data.take tk
      if buf'.length = 64 then
        let br := sha256_blocks (sha256_compress ctx.h buf') (data.drop tk)
        { h := br.1, buffer := br.2, total := total' }
      else
        { h := ctx.h, buffer := buf', total := total' }

/-- The eight big-endian bytes of the 64-bit bit length written by
`crypto_sha256_final`. -/
def be64bytes (v : Nat) : List Nat :=
  (List.range 8).map (fun i => (v >>> ((7 - i) * 8)) % U8)

/-- The digest output loop of `crypto_sha256_final`: each state word as
four big-endian bytes. -/
def sha256_digest_bytes (hs : List Nat) : List Nat :=
  hs.flatMap (fun w => [(w >>> 24) % U8, (w >>> 16) % U8, (w >>> 8) % U8, w % U8])

/-- The all-zero context left behind by `memset(&sha_ctx, 0, ...)`. -/
def sha256_zero_ctx : Sha256Ctx :=
  { h := List.replicate 8 0, buffer := [], total := 0 }

/-- `crypto_sha256_final`: returns the 32-byte digest and the zeroed
context that remains in `sha_ctx`. -/
def crypto_sha256_final (ctx : Sha256Ctx) : List Nat × Sha256Ctx :=
  let bit_len := (ctx.total * 8) % U64
  let pad1 := ctx.buffer ++ [0x80]
  if 56 < pad1.length then
    let hs1 := sha256_compress ctx.h (pad1 ++ List.replicate (64 - pad1.length) 0)
    let hs2 := sha256_compress hs1 (List.replicate 56 0 ++ be64bytes bit_len)
    (sha256_digest_bytes hs2, sha256_zero_ctx)
  else
    let hs := sha256_compress ctx.h
      (pad1 ++ List.replicate (56 - pad1.length) 0 ++ be64bytes bit_len)
    (sha256_digest_bytes hs, sha256_zero_ctx)

/-! ## SHA-512 (the internal helper of the Ed25519 verifier) -/

/-- 64-bit rotate right of a word below `2^64`. -/
def rotr64 (x n : Nat) : Nat := ((x >>> n) ||| (x <<< (64 - n))) % U64

/-- `sha512_initial_state`. -/
def sha512_initial_state : List Nat :=
  [0x6a09e667f3bcc908, 0xbb67ae8584caa73b,
   0x3c6ef372fe94f82b, 0xa54ff53a5f1d36f1,
   0x510e527fade682d1, 0x9b05688c2b3e6c1f,
   0x1f83d9abfb41bd6b, 0x5be0cd19137e2179]

/-- `sha512_k`, the 80 round constants. -/
def sha512_k : List Nat :=
  [0x428A2F98D728AE22, 0x7137449123EF65CD,
   0xB5C0FBCFEC4D3B2F, 0xE9B5DBA58189DBBC,
   0x3956C25BF348B538, 0x59F111F1B605D019,
   0x923F82A4AF194F9B, 0xAB1C5ED5DA6D8118,
   0xD807AA98A3030242, 0x12835B0145706FBE,
   0x243185BE4EE4B28C, 0x550C7DC3D5FFB4E2,
   0x72BE5D74F27B896F, 0x80DEB1FE3B1696B1,
   0x9BDC06A725C71235, 0xC19BF174CF692694,
   0xE49B69C19EF14AD2, 0xEFBE4786384F25E3,
   0x0FC19DC68B8CD5B5, 0x240CA1CC77AC9C65,
   0x2DE92C6F592B0275, 0x4A7484AA6EA6E483,
   0x5CB0A9DCBD41FBD4, 0x76F988DA831153B5,
   0x983E5152EE66DFAB, 0xA831C66D2DB43210,
   0xB00327C898FB213F, 0xBF597FC7BEEF0EE4,
   0xC6E00BF33DA88FC2, 0xD5A79147930AA725,
   0x06CA6351E003826F, 0x142929670A0E6E70,
   0x27B70A8546D22FFC, 0x2E1B21385C26C926,
   0x4D2C6DFC5AC42AED, 0x53380D139D95B3DF,
   0x650A73548BAF63DE, 0x766A0ABB3C77B2A8,
   0x81C2C92E47EDAEE6, 0x92722C851482353B,
   0xA2BFE8A14CF10364, 0xA81A664BBC423001,
   0xC24B8B70D0F89791, 0xC76C51A30654BE30,
   0xD192E819D6EF5218, 0xD69906245565A910,
   0xF40E35855771202A, 0x106AA07032BBD1B8,
   0x19A4C116B8D2D0C8, 0x1E376C085141AB53,
   0x2748774CDF8EEB99, 0x34B0BCB5E19B48A8,
   0x391C0CB3C5C95A63, 0x4ED8AA4AE3418ACB,
   0x5B9CCA4F7763E373, 0x682E6FF3D6B2B8A3,
   0x748F82EE5DEFB2FC, 0x78A5636F43172F60,
   0x84C87814A1F0AB72, 0x8CC702081A6439EC,
   0x90BEFFFA23631E28, 0xA4506CEBDE82BDE9,
   0xBEF9A3F7B2C67915, 0xC67178F2E372532B,
   0xCA273ECEEA26619C, 0xD186B8C721C0C207,
   0xEADA7DD6CDE0EB1E, 0xF57D4F7FEE6ED178,
   0x06F067AA72176FBA, 0x0A637DC5A2C898A6,
   0x113F9804BEF90DAE, 0x1B710B35131C471B,
   0x28DB77F523047D84, 0x32CAAB7B40C72493,
   0x3C9EBE0A15C9BEBC, 0x431D67C49C100D4C,
   0x4CC5D4BECB3E42B6, 0x597F299CFC657E2A,
   0x5FCB6FAB3AD6FAEC, 0x6C44198C4A475817]

/-- Big-endian 64-bit load of eight consecutive bytes of `block` at `j`. -/
def be64at (block : List Nat) (j : Nat) : Nat :=
  (block.getD j 0 <<< 56) ||| (block.getD (j + 1) 0 <<< 48) |||
    (block.getD (j + 2) 0 <<< 40) ||| (block.getD (j + 3) 0 <<< 32) |||
    (block.getD (j + 4) 0 <<< 24) ||| (block.getD (j + 5) 0 <<< 16) |||
    (block.getD (j + 6) 0 <<< 8) ||| block.getD (j + 7) 0

/-- The 80-entry message schedule of `sha512_process_block`. -/
def sha512_schedule (block : List Nat) : List Nat :=
  List.foldl
    (fun w i =>
      let s0 := rotr64 (w.getD (i - 15) 0) 1 ^^^ rotr64 (w.getD (i - 15) 0) 8 ^^^
        (w.getD (i - 15) 0 >>> 7)
      let s1 := rotr64 (w.getD (i - 2) 0) 19 ^^^ rotr64 (w.getD (i - 2) 0) 61 ^^^
        (w.getD (i - 2) 0 >>> 6)
      w ++ [(w.getD (i - 16) 0 + s0 + w.getD (i - 7) 0 + s1) % U64])
    ((List.range 16).map (fun i => be64at block (8 * i)))
    (List.drop 16 (List.range 80))

/-- One SHA-512 compression round on the register list `[a,...,h]`. -/
def sha512_round (st : List Nat) (ki wi : Nat) : List Nat :=
  let a := st.getD 0 0
  let b := st.getD 1 0
  let c := st.getD 2 0
  let d := st.getD 3 0
  let e := st.getD 4 0
  let f := st.getD 5 0
  let g := st.getD 6 0
  let h := st.getD 7 0
  let S1 := rotr64 e 14 ^^^ rotr64 e 18 ^^^ rotr64 e 41
  let ch := (e &&& f) ^^^ ((U64 - 1 - e) &&& g)
  let temp1 := (h + S1 + ch + ki + wi) % U64
  let S0 := rotr64 a 28 ^^^ rotr64 a 34 ^^^ rotr64 a 39
  let maj := (a &&& b) ^^^ (a &&& c) ^^^ (b &&& c)
  let temp2 := (S0 + maj) % U64
  [(temp1 + temp2) % U64, a, b, c, (d + temp1) % U64, e, f, g]

/-- `sha512_process_block` on an explicit state. -/
def sha512_compress (hs : List Nat) (block : List Nat) : List Nat :=
  let w := sha512_schedule block
  let fin := List.foldl (fun st i => sha512_round st (sha512_k.getD i 0) (w.getD i 0))
    hs (List.range 80)
  List.zipWith (fun a b => (a + b) % U64) hs fin

/-- The SHA-512 context `sha512_ctx_t`: state words, the two-word
128-bit length counter, and the filled prefix of the 128-byte buffer. -/
structure Sha512Ctx where
  state : List Nat
  totalHi : Nat
  totalLo : Nat
  buffer : List Nat
  deriving Repr, DecidableEq

/-- `sha512_init`. -/
def sha512_init : Sha512Ctx :=
  { state := sha512_initial_state, totalHi := 0, totalLo := 0, buffer := [] }

/-- The `while (len >= 128)` loop of `sha512_update`, fuelled like
`sha256_blocks_go`. -/
def sha512_blocks_go (hs : List Nat) (data : List Nat) : Nat → List Nat × List Nat
  | 0 => (hs, data)
  | fuel + 1 =>
    if 128 ≤ data.length then
      sha512_blocks_go (sha512_compress hs (data.take 128)) (data.drop 128) fuel
    else (hs, data)

/-- The `while (len >= 128)` loop of `sha512_update`. -/
def sha512_blocks (hs : List Nat) (data : List Nat) : List Nat × List Nat :=
  sha512_blocks_go hs data data.length

/-- `sha512_update`. -/
def sha512_update (ctx : Sha512Ctx) (data : List Nat) : Sha512Ctx :=
  if data.isEmpty then ctx
  else
    let low := (ctx.totalLo + data.length) % U64
    let hi := if low < ctx.totalLo then (ctx.totalHi + 1) % U64 else ctx.totalHi
    if ctx.buffer.isEmpty then
      let br := sha512_blocks ctx.state data
      { state := br.1, totalHi := hi, totalLo := low, buffer := br.2 }
    else
      let space := 128 - ctx.buffer.length
      let tk := min data.length space
      let buf' := ctx.buffer ++ data.take tk
      if buf'.length = 128 then
        let br := sha512_blocks (sha512_compress ctx.state buf') (data.drop tk)
        { state := br.1, totalHi := hi, totalLo := low, buffer := br.2 }
      else
        { state := ctx.state, totalHi := hi, totalLo := low, buffer := buf' }

/-- `sha512_final`: the 64-byte digest (the zeroed context is not
returned; the caller's context is local). -/
def sha512_final (ctx : Sha512Ctx) : List Nat :=
  let bit_hi := ((ctx.totalHi <<< 3) ||| (ctx.totalLo >>> 61)) % U64
  let bit_lo := (ctx.totalLo <<< 3) % U64
  let pad1 := ctx.buffer ++ [0x80]
  let hs :=
    if 112 < pad1.length then
      let hs1 := sha512_compress ctx.state (pad1 ++ List.replicate (128 - pad1.length) 0)
      sha512_compress hs1
        (List.replicate 112 0 ++ be64bytes bit_hi ++ be64bytes bit_lo)
    else
      sha512_compress ctx.state
        (pad1 ++ List.replicate (112 - pad1.length) 0 ++ be64bytes bit_hi ++ be64bytes bit_lo)
  hs.flatMap be64bytes

/-- `sha512_three`: hash the concatenation of three byte strings. -/
def sha512_three (a b c : List Nat) : List Nat :=
  sha512_final (sha512_update (sha512_update (sha512_update sha512_init a) b) c)

/-! ## Field arithmetic mod 2^255-19 (`fe51` of `src/crypto_ops.c`) -/

/-- `uint64_t` subtraction `a - b` for operands below `2^64`. -/
def u64sub (a b : Nat) : Nat := (a + U64 - b) % U64

/-- A field element in five 51-bit limbs (`fe51`), each limb a `uint64_t`. -/
structure fe51 where
  v0 : Nat
  v1 : Nat
  v2 : Nat
  v3 : Nat
  v4 : Nat
  deriving Repr, DecidableEq

/-- `FE51_MASK = 2^51 - 1`. -/
def FE51_MASK : Nat := 2 ^ 51 - 1

/-- `fe51_setzero`. -/
def fe51_setzero : fe51 := ⟨0, 0, 0, 0, 0⟩

/-- `fe51_setone`. -/
def fe51_setone : fe51 := ⟨1, 0, 0, 0, 0⟩

/-- `load64_le`: little-endian 64-bit load at offset `j`. -/
def load64_le (s : List Nat) (j : Nat) : Nat :=
  s.getD j 0 ||| (s.getD (j + 1) 0 <<< 8) ||| (s.getD (j + 2) 0 <<< 16) |||
    (s.getD (j + 3) 0 <<< 24) ||| (s.getD (j + 4) 0 <<< 32) |||
    (s.getD (j + 5) 0 <<< 40) ||| (s.getD (j + 6) 0 <<< 48) |||
    (s.getD (j + 7) 0 <<< 56)

/-- `fe51_reduce`: the carry/fold chain. -/
def fe51_reduce (r : fe51) : fe51 :=
  let c0 := r.v0 >>> 51
  let r0 := r.v0 &&& FE51_MASK
  let r1 := (r.v1 + c0) % U64
  let c1 := r1 >>> 51
  let r1 := r1 &&& FE51_MASK
  let r2 := (r.v2 + c1) % U64
  let c2 := r2 >>> 51
  let r2 := r2 &&& FE51_MASK
  let r3 := (r.v3 + c2) % U64
  let c3 := r3 >>> 51
  let r3 := r3 &&& FE51_MASK
  let r4 := (r.v4 + c3) % U64
  let c4 := r4 >>> 51
  let r4 := r4 &&& FE51_MASK
  let r0 := (r0 + c4 * 19) % U64
  let c0 := r0 >>> 51
  let r0 := r0 &&& FE51_MASK
  let r1 := (r1 + c0) % U64
  let r1 := r1 &&& FE51_MASK
  ⟨r0, r1, r2, r3, r4⟩

/-- `fe51_frombytes`. -/
def fe51_frombytes (s : List Nat) : fe51 :=
  ⟨load64_le s 0 &&& FE51_MASK,
   (load64_le s 6 >>> 3) &&& FE51_MASK,
   (load64_le s 12 >>> 6) &&& FE51_MASK,
   (load64_le s 19 >>> 1) &&& FE51_MASK,
   (load64_le s 24 >>> 12) &&& FE51_MASK⟩

/-- `store64_le`: a 64-bit value as eight little-endian bytes. -/
def store64_le (value : Nat) : List Nat :=
  [value % U8, (value >>> 8) % U8, (value >>> 16) % U8, (value >>> 24) % U8,
   (value >>> 32) % U8, (value >>> 40) % U8, (value >>> 48) % U8, (value >>> 56) % U8]

/-- `fe51_tobytes` (reduces first, then packs). -/
def fe51_tobytes (f : fe51) : List Nat :=
  let f := fe51_reduce f
  let t0 := (f.v0 ||| (f.v1 <<< 51)) % U64
  let t1 := ((f.v1 >>> 13) ||| (f.v2 <<< 38)) % U64
  let t2 := ((f.v2 >>> 26) ||| (f.v3 <<< 25)) % U64
  let t3 := ((f.v3 >>> 39) ||| (f.v4 <<< 12)) % U64
  store64_le t0 ++ store64_le t1 ++ store64_le t2 ++ store64_le t3

/-- `fe51_add` (componentwise `uint64_t` addition). -/
def fe51_add (a b : fe51) : fe51 :=
  ⟨(a.v0 + b.v0) % U64, (a.v1 + b.v1) % U64, (a.v2 + b.v2) % U64,
   (a.v3 + b.v3) % U64, (a.v4 + b.v4) % U64⟩

/-- `FE51_2P`: 2p in limb form, the additive cushion of `fe51_sub`. -/
def FE51_2P : List Nat :=
  [4503599627370458, 4503599627370494, 4503599627370494,
   4503599627370494, 4503599627370494]

/-- `fe51_sub`: `a + 2p - b`, then reduce. -/
def fe51_sub (a b : fe51) : fe51 :=
  fe51_reduce
    ⟨u64sub ((a.v0 + FE51_2P.getD 0 0) % U64) b.v0,
     u64sub ((a.v1 + FE51_2P.getD 1 0) % U64) b.v1,
     u64sub ((a.v2 + FE51_2P.getD 2 0) % U64) b.v2,
     u64sub ((a.v3 + FE51_2P.getD 3 0) % U64) b.v3,
     u64sub ((a.v4 + FE51_2P.getD 4 0) % U64) b.v4⟩

/-- `fe51_neg`: `2p - a`, then reduce. -/
def fe51_neg (a : fe51) : fe51 :=
  fe51_reduce
    ⟨u64sub (FE51_2P.getD 0 0) a.v0, u64sub (FE51_2P.getD 1 0) a.v1,
     u64sub (FE51_2P.getD 2 0) a.v2, u64sub (FE51_2P.getD 3 0) a.v3,
     u64sub (FE51_2P.getD 4 0) a.v4⟩

/-- `fe51_mul`: schoolbook multiplication with the 19-fold of the upper
limbs, 128-bit accumulators, and the final carry chain. -/
def fe51_mul (a b : fe51) : fe51 :=
  let a1_19 := (a.v1 * 19) % U64
  let a2_19 := (a.v2 * 19) % U64
  let a3_19 := (a.v3 * 19) % U64
  let a4_19 := (a.v4 * 19) % U64
  let t0 := (a.v0 * b.v0 + a1_19 * b.v4 + a2_19 * b.v3 + a3_19 * b.v2 + a4_19 * b.v1) % U128
  let t1 := (a.v0 * b.v1 + a.v1 * b.v0 + a2_19 * b.v4 + a3_19 * b.v3 + a4_19 * b.v2) % U128
  let t2 := (a.v0 * b.v2 + a.v1 * b.v1 + a.v2 * b.v0 + a3_19 * b.v4 + a4_19 * b.v3) % U128
  let t3 := (a.v0 * b.v3 + a.v1 * b.v2 + a.v2 * b.v1 + a.v3 * b.v0 + a4_19 * b.v4) % U128
  let t4 := (a.v0 * b.v4 + a.v1 * b.v3 + a.v2 * b.v2 + a.v3 * b.v1 + a.v4 * b.v0) % U128
  let r0 := (t0 % U64) &&& FE51_MASK
  let t1 := (t1 + (t0 >>> 51) % U64) % U128
  let r1 := (t1 % U64) &&& FE51_MASK
  let t2 := (t2 + (t1 >>> 51) % U64) % U128
  let r2 := (t2 % U64) &&& FE51_MASK
  let t3 := (t3 + (t2 >>> 51) % U64) % U128
  let r3 := (t3 % U64) &&& FE51_MASK
  let t4 := (t4 + (t3 >>> 51) % U64) % U128
  let r4 := (t4 % U64) &&& FE51_MASK
  let carry := (t4 >>> 51) % U64
  let r0 := (r0 + carry * 19) % U64
  fe51_reduce ⟨r0, r1, r2, r3, r4⟩

/-- `fe51_sq`. -/
def fe51_sq (a : fe51) : fe51 := fe51_mul a a

/-- An `n`-fold application of `fe51_sq` (the squaring `for` loops of
`fe51_pow22523`). -/
def fe51_sqn : Nat → fe51 → fe51
  | 0, x => x
  | n + 1, x => fe51_sqn n (fe51_sq x)

/-- The prefix of `fe51_pow22523` up to the `2^40-1` product, returning
the live temporaries `(t1, t2)` (the stale `t0` of the source is dead at
this point: its next use is a reassignment). -/
def pow22523_chainA (z : fe51) : fe51 × fe51 :=
  let t0 := fe51_sq z
  let t1 := fe51_sq t0
  let t1 := fe51_sq t1
  let t1 := fe51_mul z t1
  let t0 := fe51_mul t0 t1
  let t2 := fe51_sq t0
  let t1 := fe51_mul t1 t2
  let t2 := fe51_sqn 5 t1
  let t1 := fe51_mul t2 t1
  let t2 := fe51_sqn 10 t1
  let t2 := fe51_mul t2 t1
  let t0 := fe51_sqn 20 t2
  let t2 := fe51_mul t0 t2
  (t1, t2)

/-- The next slice of `fe51_pow22523`, up to the `2^100-1` product. -/
def pow22523_chainB (p : fe51 × fe51) : fe51 × fe51 :=
  let t1 := p.1
  let t2 := p.2
  let t2 := fe51_sqn 10 t2
  let t1 := fe51_mul t2 t1
  let t2 := fe51_sqn 50 t1
  let t2 := fe51_mul t2 t1
  (t1, t2)

/-- The 100-fold squaring slice of `fe51_pow22523` (the value the final
multiplication later reads back as `t0`). -/
def pow22523_chainC (p : fe51 × fe51) : fe51 × fe51 × fe51 :=
  let t1 := p.1
  let t2 := p.2
  let t0 := fe51_sqn 100 t2
  (t0, t1, t2)

/-- The tail of `fe51_pow22523`: note that the final multiplication of
the source, `fe51_mul(r, &t1, &t0)`, reads the temporary `t0` (the
100-fold squaring stored by `pow22523_chainC`), not `z`. -/
def pow22523_chainD (p : fe51 × fe51 × fe51) : fe51 :=
  let t0 := p.1
  let t1 := p.2.1
  let t2 := p.2.2
  let t2 := fe51_mul t0 t2
  let t2 := fe51_sqn 50 t2
  let t1 := fe51_mul t2 t1
  let t1 := fe51_sq t1
  let t1 := fe51_sq t1
  fe51_mul t1 t0

/-- `fe51_pow22523`: the straight-line temporary shuffle of the source,
written as the composition of its four contiguous slices. -/
def fe51_pow22523 (z : fe51) : fe51 :=
  pow22523_chainD (pow22523_chainC (pow22523_chainB (pow22523_chainA z)))

/-- `fe51_invert`. -/
def fe51_invert (z : fe51) : fe51 :=
  let t0 := fe51_pow22523 z
  let t1 := fe51_sq t0
  let t1 := fe51_sq t1
  fe51_mul t1 z

/-- `fe51_is_negative` (of the reduced element). -/
def fe51_is_negative (a : fe51) : Nat := (fe51_reduce a).v0 &&& 1

/-- `fe51_is_nonzero`: the or of the reduced limbs. -/
def fe51_is_nonzero (a : fe51) : Nat :=
  let t := fe51_reduce a
  t.v0 ||| t.v1 ||| t.v2 ||| t.v3 ||| t.v4

/-- `FE51_CONST_ONE`. -/
def FE51_CONST_ONE : fe51 := ⟨1, 0, 0, 0, 0⟩

/-- `EDWARDS_D`. -/
def EDWARDS_D : fe51 :=
  ⟨929955233495203, 466365720129213, 1662059464998953,
   2033849074728123, 1442794654840575⟩

/-- `SQRT_M1`. -/
def SQRT_M1 : fe51 :=
  ⟨1718705420411056, 234908883556509, 2233514472574048,
   2117202627021982, 765476049583133⟩

/-- `ED25519_BASEPOINT`, the compressed generator. -/
def ED25519_BASEPOINT : List Nat :=
  [0x1a, 0xd5, 0x25, 0x8f, 0x60, 0x2d, 0x56, 0xc9,
   0xb2, 0xa7, 0x25, 0x95, 0x60, 0xc7, 0x2c, 0x69,
   0x5c, 0xdc, 0xd6, 0xfd, 0x31, 0xe2, 0xa4, 0xc0,
   0xfe, 0x53, 0x6e, 0xcd, 0xd3, 0x36, 0x69, 0x21]

/-- `ZK_PUBKEY`, the compiled-in Ed25519 public key of `crypto_ops.h`. -/
def ZK_PUBKEY : List Nat :=
  [0xEA, 0x4D, 0x85, 0x32, 0xDB, 0x8F, 0xC5, 0x70,
   0xE8, 0xA3, 0xC6, 0xD9, 0x4C, 0x8F, 0x41, 0x29,
   0xBE, 0x91, 0x13, 0xD5, 0xB6, 0xF3, 0x51, 0x50,
   0xD2, 0xD3, 0xE6, 0x7F, 0x62, 0x80, 0x49, 0x7B]

/-- A point in extended coordinates (`ge_p3`). -/
structure ge_p3 where
  X : fe51
  Y : fe51
  Z : fe51
  T : fe51
  deriving Repr, DecidableEq

/-- `ge_identity`. -/
def ge_identity : ge_p3 :=
  { X := fe51_setzero, Y := fe51_setone, Z := fe51_setone, T := fe51_setzero }

/-- `ge_add`, the unified addition. -/
def ge_add (p q : ge_p3) : ge_p3 :=
  let Y1plusX1 := fe51_add p.Y p.X
  let Y1minusX1 := fe51_sub p.Y p.X
  let Y2plusX2 := fe51_add q.Y q.X
  let Y2minusX2 := fe51_sub q.Y q.X
  let A := fe51_mul Y1minusX1 Y2plusX2
  let B := fe51_mul Y1plusX1 Y2minusX2
  let C := fe51_mul p.T q.T
  let C := fe51_mul C EDWARDS_D
  let C := fe51_add C C
  let D := fe51_mul p.Z q.Z
  let D := fe51_add D D
  let E := fe51_sub B A
  let F := fe51_sub D C
  let G := fe51_add D C
  let H := fe51_add B A
  { X := fe51_mul E F, Y := fe51_mul G H, Z := fe51_mul F G, T := fe51_mul E H }

/-- `ge_double`. -/
def ge_double (p : ge_p3) : ge_p3 :=
  let A := fe51_sq p.X
  let B := fe51_sq p.Y
  let C := fe51_sq p.Z
  let C := fe51_add C C
  let D := fe51_neg A
  let E := fe51_sq (fe51_add p.X p.Y)
  let E := fe51_sub E A
  let E := fe51_sub E B
  let G := fe51_add D B
  let F := fe51_sub G C
  let H := fe51_sub D B
  { X := fe51_mul E F, Y := fe51_mul G H, Z := fe51_mul F G, T := fe51_mul E H }

/-- The `(u, v)` pair of `ge_frombytes`: `u = y^2 - 1`,
`v = d*y^2 + 1` from the decoded `Y`. -/
def ge_frombytes_uv (Y : fe51) : fe51 × fe51 :=
  let y_sq := fe51_sq Y
  (fe51_sub y_sq FE51_CONST_ONE,
   fe51_add (fe51_mul y_sq EDWARDS_D) FE51_CONST_ONE)

/-- The candidate root of `ge_frombytes`:
`x = u * v^3 * (u * v^7)^((p-5)/8)` via `fe51_pow22523`. -/
def ge_xrecover (u v : fe51) : fe51 :=
  let v_sq := fe51_sq v
  let v_cube := fe51_mul v_sq v
  let x := fe51_mul v_cube u
  let x := fe51_pow22523 x
  let x := fe51_mul x v_cube
  fe51_mul x u

/-- The `v*x^2 - u` check value of `ge_frombytes`. -/
def ge_vxcheck (u v x : fe51) : fe51 :=
  fe51_sub (fe51_mul (fe51_sq x) v) u

/-- The root-check, sign-fix and point-assembly tail of `ge_frombytes`,
after `sign`, `Y`, `u`, `v` and the candidate root `x` have been
computed. -/
def ge_frombytes_check (sign : Nat) (Y u v x : fe51) : Option ge_p3 :=
  let xres :=
    if fe51_is_nonzero (ge_vxcheck u v x) ≠ 0 then
      let x := fe51_mul x SQRT_M1
      if fe51_is_nonzero (ge_vxcheck u v x) ≠ 0 then none else some x
    else some x
  match xres with
  | none => none
  | some x =>
    let x := fe51_reduce x
    let x := if fe51_is_negative x ≠ sign then fe51_neg x else x
    some { X := x, Y := Y, Z := fe51_setone, T := fe51_mul x Y }

/-- The tail of `ge_frombytes` with the candidate root still to be
computed by `ge_xrecover`. -/
def ge_frombytes_post (sign : Nat) (Y u v : fe51) : Option ge_p3 :=
  ge_frombytes_check sign Y u v (ge_xrecover u v)

/-- `ge_frombytes`: point decompression; `none` models the `-1` error
return. -/
def ge_frombytes (s : List Nat) : Option ge_p3 :=
  let sign := s.getD 31 0 >>> 7
  let buf := s.take 31 ++ [s.getD 31 0 &&& 0x7f]
  let Y := fe51_frombytes buf
  let uv := ge_frombytes_uv Y
  ge_frombytes_post sign Y uv.1 uv.2

/-- `ge_tobytes`: point compression. -/
def ge_tobytes (p : ge_p3) : List Nat :=
  let z_inv := fe51_invert p.Z
  let x := fe51_reduce (fe51_mul p.X z_inv)
  let y := fe51_reduce (fe51_mul p.Y z_inv)
  let s := fe51_tobytes y
  let x_bytes := fe51_tobytes x
  s.take 31 ++ [s.getD 31 0 ^^^ ((x_bytes.getD 0 0 &&& 1) <<< 7)]

/-- The bit-indexed double-and-add loop of `ge_scalarmult`:
`ge_scalarmult_loop p s (i+1) r` performs the iteration for bit `i` and
recurses, so `ge_scalarmult_loop p s 256 ge_identity` runs bits 255
down to 0. -/
def ge_scalarmult_loop (p : ge_p3) (scalar : List Nat) : Nat → ge_p3 → ge_p3
  | 0, r => r
  | i + 1, r =>
    let r := ge_double r
    let r := if (scalar.getD (i >>> 3) 0 >>> (i &&& 7)) &&& 1 = 1 then ge_add r p else r
    ge_scalarmult_loop p scalar i r

/-- `ge_scalarmult`: variable-time scalar multiplication. -/
def ge_scalarmult (p : ge_p3) (scalar : List Nat) : ge_p3 :=
  ge_scalarmult_loop p scalar 256 ge_identity

/-! ## Scalar arithmetic (`sc_reduce`, `sc_check`) -/

/-- `load_3`: little-endian 24-bit load at offset `j`. -/
def load_3 (s : List Nat) (j : Nat) : Nat :=
  s.getD j 0 ||| (s.getD (j + 1) 0 <<< 8) ||| (s.getD (j + 2) 0 <<< 16)

/-- `load_4`: little-endian 32-bit load at offset `j`. -/
def load_4 (s : List Nat) (j : Nat) : Nat :=
  s.getD j 0 ||| (s.getD (j + 1) 0 <<< 8) ||| (s.getD (j + 2) 0 <<< 16) |||
    (s.getD (j + 3) 0 <<< 24)

/-- The arithmetic right shift of an `int64_t` by `n` bits. -/
def i64shr (x : Int) (n : Nat) : Int := Int.fdiv x (2 ^ n)

/-- The `(uint8_t)` truncation of an `int64_t`: its low 8 bits in
two-complement reading, a value in `[0, 256)`. -/
def i64u8 (x : Int) : Nat := (x % 256).toNat

/-- `sc_reduce`: the ref10-style reduction of a 64-byte value modulo the
group order; the 32 output bytes the routine stores back. -/
def sc_reduce (s : List Nat) : List Nat :=
  let s0 : Int := Int.ofNat (2097151 &&& load_3 s 0)
  let s1 : Int := Int.ofNat (2097151 &&& (load_4 s 2 >>> 5))
  let s2 : Int := Int.ofNat (2097151 &&& (load_3 s 5 >>> 2))
  let s3 : Int := Int.ofNat (2097151 &&& (load_4 s 7 >>> 7))
  let s4 : Int := Int.ofNat (2097151 &&& (load_4 s 10 >>> 4))
  let s5 : Int := Int.ofNat (2097151 &&& (load_3 s 13 >>> 1))
  let s6 : Int := Int.ofNat (2097151 &&& (load_4 s 15 >>> 6))
  let s7 : Int := Int.ofNat (2097151 &&& (load_3 s 18 >>> 3))
  let s8 : Int := Int.ofNat (2097151 &&& load_3 s 21)
  let s9 : Int := Int.ofNat (2097151 &&& (load_4 s 23 >>> 5))
  let s10 : Int := Int.ofNat (2097151 &&& (load_3 s 26 >>> 2))
  let s11 : Int := Int.ofNat (2097151 &&& (load_4 s 28 >>> 7))
  let s12 : Int := Int.ofNat (2097151 &&& (load_4 s 31 >>> 4))
  let s13 : Int := Int.ofNat (2097151 &&& (load_3 s 34 >>> 1))
  let s14 : Int := Int.ofNat (2097151 &&& (load_4 s 36 >>> 6))
  let s15 : Int := Int.ofNat (2097151 &&& (load_3 s 39 >>> 3))
  let s16 : Int := Int.ofNat (2097151 &&& load_3 s 42)
  let s17 : Int := Int.ofNat (2097151 &&& (load_4 s 44 >>> 5))
  let s18 : Int := Int.ofNat (2097151 &&& (load_3 s 47 >>> 2))
  let s19 : Int := Int.ofNat (2097151 &&& (load_4 s 49 >>> 7))
  let s20 : Int := Int.ofNat (2097151 &&& (load_4 s 52 >>> 4))
  let s21 : Int := Int.ofNat (2097151 &&& (load_3 s 55 >>> 1))
  let s22 : Int := Int.ofNat (2097151 &&& (load_4 s 57 >>> 6))
  let s23 : Int := Int.ofNat (load_4 s 60 >>> 3)
  let s11 := s11 + s23 * 666643
  let s12 := s12 + s23 * 470296
  let s13 := s13 + s23 * 654183
  let s14 := s14 - s23 * 997805
  let s15 := s15 + s23 * 136657
  let s16 := s16 - s23 * 683901
  let s10 := s10 + s22 * 666643
  let s11 := s11 + s22 * 470296
  let s12 := s12 + s22 * 654183
  let s13 := s13 - s22 * 997805
  let s14 := s14 + s22 * 136657
  let s15 := s15 - s22 * 683901
  let s9 := s9 + s21 * 666643
  let s10 := s10 + s21 * 470296
  let s11 := s11 + s21 * 654183
  let s12 := s12 - s21 * 997805
  let s13 := s13 + s21 * 136657
  let s14 := s14 - s21 * 683901
  let s8 := s8 + s20 * 666643
  let s9 := s9 + s20 * 470296
  let s10 := s10 + s20 * 654183
  let s11 := s11 - s20 * 997805
  let s12 := s12 + s20 * 136657
  let s13 := s13 - s20 * 683901
  let s7 := s7 + s19 * 666643
  let s8 := s8 + s19 * 470296
  let s9 := s9 + s19 * 654183
  let s10 := s10 - s19 * 997805
  let s11 := s11 + s19 * 136657
  let s12 := s12 - s19 * 683901
  let s6 := s6 + s18 * 666643
  let s7 := s7 + s18 * 470296
  let s8 := s8 + s18 * 654183
  let s9 := s9 - s18 * 997805
  let s10 := s10 + s18 * 136657
  let s11 := s11 - s18 * 683901
  let s5 := s5 + s17 * 666643
  let s6 := s6 + s17 * 470296
  let s7 := s7 + s17 * 654183
  let s8 := s8 - s17 * 997805
  let s9 := s9 + s17 * 136657
  let s10 := s10 - s17 * 683901
  let s4 := s4 + s16 * 666643
  let s5 := s5 + s16 * 470296
  let s6 := s6 + s16 * 654183
  let s7 := s7 - s16 * 997805
  let s8 := s8 + s16 * 136657
  let s9 := s9 - s16 * 683901
  let s3 := s3 + s15 * 666643
  let s4 := s4 + s15 * 470296
  let s5 := s5 + s15 * 654183
  let s6 := s6 - s15 * 997805
  let s7 := s7 + s15 * 136657
  let s8 := s8 - s15 * 683901
  let s2 := s2 + s14 * 666643
  let s3 := s3 + s14 * 470296
  let s4 := s4 + s14 * 654183
  let s5 := s5 - s14 * 997805
  let s6 := s6 + s14 * 136657
  let s7 := s7 - s14 * 683901
  let s1 := s1 + s13 * 666643
  let s2 := s2 + s13 * 470296
  let s3 := s3 + s13 * 654183
  let s4 := s4 - s13 * 997805
  let s5 := s5 + s13 * 136657
  let s6 := s6 - s13 * 683901
  let s0 := s0 + s12 * 666643
  let s1 := s1 + s12 * 470296
  let s2 := s2 + s12 * 654183
  let s3 := s3 - s12 * 997805
  let s4 := s4 + s12 * 136657
  let s5 := s5 - s12 * 683901
  let carry0 := Int.fdiv (s0 + 1048576) 2097152
  let s1 := s1 + carry0
  let s0 := s0 - carry0 * 2097152
  let carry1 := Int.fdiv (s1 + 1048576) 2097152
  let s2 := s2 + carry1
  let s1 := s1 - carry1 * 2097152
  let carry2 := Int.fdiv (s2 + 1048576) 2097152
  let s3 := s3 + carry2
  let s2 := s2 - carry2 * 2097152
  let carry3 := Int.fdiv (s3 + 1048576) 2097152
  let s4 := s4 + carry3
  let s3 := s3 - carry3 * 2097152
  let carry4 := Int.fdiv (s4 + 1048576) 2097152
  let s5 := s5 + carry4
  let s4 := s4 - carry4 * 2097152
  let carry5 := Int.fdiv (s5 + 1048576) 2097152
  let s6 := s6 + carry5
  let s5 := s5 - carry5 * 2097152
  let carry6 := Int.fdiv (s6 + 1048576) 2097152
  let s7 := s7 + carry6
  let s6 := s6 - carry6 * 2097152
  let carry7 := Int.fdiv (s7 + 1048576) 2097152
  let s8 := s8 + carry7
  let s7 := s7 - carry7 * 2097152
  let carry8 := Int.fdiv (s8 + 1048576) 2097152
  let s9 := s9 + carry8
  let s8 := s8 - carry8 * 2097152
  let carry9 := Int.fdiv (s9 + 1048576) 2097152
  let s10 := s10 + carry9
  let s9 := s9 - carry9 * 2097152
  let carry10 := Int.fdiv (s10 + 1048576) 2097152
  let s11 := s11 + carry10
  let s10 := s10 - carry10 * 2097152
  let carry11 := Int.fdiv (s11 + 1048576) 2097152
  let s12 := s12 + carry11
  let s11 := s11 - carry11 * 2097152
  let s0 := s0 + s12 * 666643
  let s1 := s1 + s12 * 470296
  let s2 := s2 + s12 * 654183
  let s3 := s3 - s12 * 997805
  let s4 := s4 + s12 * 136657
  let s5 := s5 - s12 * 683901
  let carry0 := Int.fdiv (s0 + 1048576) 2097152
  let s1 := s1 + carry0
  let s0 := s0 - carry0 * 2097152
  let carry1 := Int.fdiv (s1 + 1048576) 2097152
  let s2 := s2 + carry1
  let s1 := s1 - carry1 * 2097152
  let carry2 := Int.fdiv (s2 + 1048576) 2097152
  let s3 := s3 + carry2
  let s2 := s2 - carry2 * 2097152
  let carry3 := Int.fdiv (s3 + 1048576) 2097152
  let s4 := s4 + carry3
  let s3 := s3 - carry3 * 2097152
  let carry4 := Int.fdiv (s4 + 1048576) 2097152
  let s5 := s5 + carry4
  let s4 := s4 - carry4 * 2097152
  let carry5 := Int.fdiv (s5 + 1048576) 2097152
  let s6 := s6 + carry5
  let s5 := s5 - carry5 * 2097152
  let carry6 := Int.fdiv (s6 + 1048576) 2097152
  let s7 := s7 + carry6
  let s6 := s6 - carry6 * 2097152
  let carry7 := Int.fdiv (s7 + 1048576) 2097152
  let s8 := s8 + carry7
  let s7 := s7 - carry7 * 2097152
  let carry8 := Int.fdiv (s8 + 1048576) 2097152
  let s9 := s9 + carry8
  let s8 := s8 - carry8 * 2097152
  let carry9 := Int.fdiv (s9 + 1048576) 2097152
  let s10 := s10 + carry9
  let s9 := s9 - carry9 * 2097152
  let carry10 := Int.fdiv (s10 + 1048576) 2097152
  let s11 := s11 + carry10
  let s10 := s10 - carry10 * 2097152
  [i64u8 s0,
   i64u8 (i64shr s0 8),
   i64u8 (i64shr s0 16) ||| i64u8 (s1 * 32),
   i64u8 (i64shr s1 3),
   i64u8 (i64shr s1 11),
   i64u8 (i64shr s1 19) ||| i64u8 (s2 * 4),
   i64u8 (i64shr s2 6),
   i64u8 (i64shr s2 14) ||| i64u8 (s3 * 128),
   i64u8 (i64shr s3 1),
   i64u8 (i64shr s3 9),
   i64u8 (i64shr s3 17) ||| i64u8 (s4 * 16),
   i64u8 (i64shr s4 4),
   i64u8 (i64shr s4 12),
   i64u8 (i64shr s4 20) ||| i64u8 (s5 * 2),
   i64u8 (i64shr s5 7),
   i64u8 (i64shr s5 15) ||| i64u8 (s6 * 64),
   i64u8 (i64shr s6 2),
   i64u8 (i64shr s6 10),
   i64u8 (i64shr s6 18) ||| i64u8 (s7 * 8),
   i64u8 (i64shr s7 5),
   i64u8 (i64shr s7 13),
   i64u8 s8,
   i64u8 (i64shr s8 8),
   i64u8 (i64shr s8 16) ||| i64u8 (s9 * 32),
   i64u8 (i64shr s9 3),
   i64u8 (i64shr s9 11),
   i64u8 (i64shr s9 19) ||| i64u8 (s10 * 4),
   i64u8 (i64shr s10 6),
   i64u8 (i64shr s10 14) ||| i64u8 (s11 * 128),
   i64u8 (i64shr s11 1),
   i64u8 (i64shr s11 9),
   i64u8 (i64shr s11 17)]

/-- `SC_L`: the group order `L` as 32 little-endian bytes. -/
def SC_L : List Nat :=
  [0xED, 0xD3, 0xF5, 0x5C, 0x1A, 0x63, 0x12, 0x58,
   0xD6, 0x9C, 0xF7, 0xA2, 0xDE, 0xF9, 0xDE, 0x14,
   0x00, 0x00, 0x00, 0x00, 0x00, 0x00, 0x00, 0x00,
   0x00, 0x00, 0x00, 0x00, 0x00, 0x00, 0x00, 0x10]

/-- One iteration of the `sc_check` comparison loop at byte index `i`:
first the `gt` update (using the incoming `c`), then the `c` update. -/
def sc_check_step (s : List Nat) (i : Nat) (cg : Nat × Nat) : Nat × Nat :=
  let gt := if SC_L.getD i 0 < s.getD i 0 ∧ cg.1 = 0 then 1 else cg.2
  let c := if s.getD i 0 < SC_L.getD i 0 then 1 else cg.1
  (c, gt)

/-- The descending loop of `sc_check`: `sc_check_loop s (i+1)` performs
the iteration for index `i` and recurses, so `sc_check_loop s 32`
runs indices 31 down to 0. -/
def sc_check_loop (s : List Nat) : Nat → Nat × Nat → Nat × Nat
  | 0, cg => cg
  | i + 1, cg => sc_check_loop s i (sc_check_step s i cg)

/-- `sc_check`: the `gt` flag after scanning all 32 bytes from the most
significant end. -/
def sc_check (s : List Nat) : Nat := (sc_check_loop s 32 (0, 0)).2

/-! ## Ed25519 verification -/

/-- `crypto_verify_32`: the constant-time 32-byte comparison; `0` means
equal, `-1` different. -/
def crypto_verify_32 (a b : List Nat) : Int :=
  let diff := List.foldl (fun d i => d ||| (a.getD i 0 ^^^ b.getD i 0)) 0 (List.range 32)
  Int.ofNat (1 &&& (((diff + (U32 - 1)) % U32) >>> 8)) - 1

/-- `crypto_ed25519_verify` over the compiled-in public key. -/
def crypto_ed25519_verify (signature hash : List Nat) : Bool :=
  if sc_check (signature.drop 32) ≠ 0 then false
  else
    match ge_frombytes ZK_PUBKEY with
    | none => false
    | some A =>
      match ge_frombytes ED25519_BASEPOINT with
      | none => false
      | some B =>
        let hram := sc_reduce (sha512_three (signature.take 32) ZK_PUBKEY (hash.take 32))
        let SB := ge_scalarmult B (signature.drop 32)
        let hA := ge_scalarmult A hram
        let hA := { hA with X := fe51_neg hA.X, T := fe51_neg hA.T }
        let Rcalc := ge_add SB hA
        let rcheck := ge_tobytes Rcalc
        crypto_verify_32 rcheck (signature.take 32) = 0

/-! ## Evaluation of the public-key decompression

The intermediate field values of `ge_frombytes ZK_PUBKEY`, computed in
slices so each kernel evaluation stays shallow. -/

/-- The decoded `Y` coordinate of `ZK_PUBKEY`. -/
def zkY : fe51 :=
  ⟨1565546491760106, 452143362149912, 1211966633084477, 537833672137578, 2168889868287597⟩

/-- `u = y^2 - 1` for `ZK_PUBKEY`. -/
def zkU : fe51 :=
  ⟨2142114527850093, 1714534396887470, 1562001365741091, 768435765997032, 882702241781025⟩

/-- `v = d y^2 + 1` for `ZK_PUBKEY`. -/
def zkV : fe51 :=
  ⟨1167733797857053, 920710679028097, 2128959856340119, 1174859760060172, 1547892542581661⟩

/-- `v^3` for `ZK_PUBKEY`. -/
def zkV3 : fe51 :=
  ⟨2165443492596730, 486374646988883, 2043250824062432, 1759543100367791, 1241353149344626⟩

/-- `v^3 * u`, the input to `fe51_pow22523`, for `ZK_PUBKEY`. -/
def zkXin : fe51 :=
  ⟨1191063612896805, 1231620801258608, 373778407143120, 2097523151788335, 1422244158469091⟩

/-- `pow22523_chainA zkXin`. -/
def zkPA : fe51 × fe51 :=
  (⟨2032870639136567, 1504295855302216, 346042386113123, 1835770260128571, 1143439531493651⟩,
   ⟨1520205926131834, 1246779549326066, 665622337320328, 1520196730398091, 1587041261044198⟩)

/-- `pow22523_chainB zkPA`. -/
def zkPB : fe51 × fe51 :=
  (⟨2046880417180501, 2240477912274379, 1523341106654705, 1033293087024423, 473982176409150⟩,
   ⟨2206224807653055, 796289483478460, 1068731273620274, 736031187411059, 1891206887554685⟩)

/-- `pow22523_chainC zkPB`. -/
def zkPC : fe51 × fe51 × fe51 :=
  (⟨2017319144601063, 958655315450466, 1283412742452898, 1738217679417666, 483113906605950⟩,
   ⟨2046880417180501, 2240477912274379, 1523341106654705, 1033293087024423, 473982176409150⟩,
   ⟨2206224807653055, 796289483478460, 1068731273620274, 736031187411059, 1891206887554685⟩)

/-- `pow22523_chainD zkPC`: the full `fe51_pow22523 zkXin`. -/
def zkPw : fe51 :=
  ⟨1461922262483255, 823291792500496, 1801040388454598, 733262926808785, 880327380886885⟩

/-- The candidate root `x` of `ZK_PUBKEY`. -/
def zkX : fe51 :=
  ⟨63846800274682, 698685990760423, 342222031200352, 1579750202168927, 677544609840040⟩

set_option maxRecDepth 1000000 in
/-- The candidate root of `ZK_PUBKEY`, evaluated slice by slice. -/
theorem ge_xrecover_zk : ge_xrecover zkU zkV = zkX := by
  have e1 : fe51_mul (fe51_sq zkV) zkV = zkV3 := by decide
  have e2 : fe51_mul zkV3 zkU = zkXin := by decide
  have eA : pow22523_chainA zkXin = zkPA := by decide
  have eB : pow22523_chainB zkPA = zkPB := by decide
  have eC : pow22523_chainC zkPB = zkPC := by decide
  have eD : pow22523_chainD zkPC = zkPw := by decide
  simp only [ge_xrecover, fe51_pow22523]
  rw [e1, e2, eA, eB, eC, eD]
  decide

set_option maxRecDepth 1000000 in
/-- The compiled-in public key fails Ed25519 point decompression: the
candidate root fails the `v x^2 = u` test both before and after the
`sqrt(-1)` correction (a consequence of the defective final
multiplication of `fe51_pow22523`). -/
theorem ge_frombytes_pubkey_none : ge_frombytes ZK_PUBKEY = none := by
  have e1 : fe51_frombytes (ZK_PUBKEY.take 31 ++ [ZK_PUBKEY.getD 31 0 &&& 0x7f]) = zkY := by
    decide
  have e2 : ge_frombytes_uv zkY = (zkU, zkV) := by decide
  show ge_frombytes_post (ZK_PUBKEY.getD 31 0 >>> 7)
    (fe51_frombytes (ZK_PUBKEY.take 31 ++ [ZK_PUBKEY.getD 31 0 &&& 0x7f]))
    (ge_frombytes_uv (fe51_frombytes (ZK_PUBKEY.take 31 ++ [ZK_PUBKEY.getD 31 0 &&& 0x7f]))).1
    (ge_frombytes_uv (fe51_frombytes (ZK_PUBKEY.take 31 ++ [ZK_PUBKEY.getD 31 0 &&& 0x7f]))).2
    = none
  rw [e1, e2]
  show ge_frombytes_check (ZK_PUBKEY.getD 31 0 >>> 7) zkY zkU zkV (ge_xrecover zkU zkV) = none
  rw [ge_xrecover_zk]
  decide

/-- Because `ge_frombytes ZK_PUBKEY` fails, the verifier rejects every
signature/hash pair. -/
theorem crypto_ed25519_verify_false (signature hash : List Nat) :
    crypto_ed25519_verify signature hash = false := by
  unfold crypto_ed25519_verify
  rw [ge_frombytes_pubkey_none]
  split
  · rfl
  · rfl

/-! ## `strtoul` and `strtok` of `src/minimal_libc.c` -/

/-- The digit-accumulation loop of `strtoul`: consume digits valid for
`base`, accumulating modulo `2^32` (the target's 32-bit
`unsigned long`); returns the value and the unconsumed suffix (the
`endptr` position). -/
def strtoul_digits (base : Nat) : List Nat → Nat → Nat × List Nat
  | [], acc => (acc, [])
  | c :: rest, acc =>
    let d? : Option Nat :=
      if 48 ≤ c ∧ c ≤ 57 then some (c - 48)
      else if 97 ≤ c ∧ c ≤ 102 then some (c - 97 + 10)
      else if 65 ≤ c ∧ c ≤ 70 then some (c - 65 + 10)
      else none
    match d? with
    | none => (acc, c :: rest)
    | some d =>
      if base ≤ d then (acc, c :: rest)
      else strtoul_digits base rest ((acc * base + d) % U32)

/-- Is `c` one of the whitespace characters `strtoul` skips? -/
def strtoul_isspace (c : Nat) : Bool :=
  c = 32 || c = 9 || c = 13 || c = 10 || c = 12 || c = 11

/-- `strtoul(nptr, endptr, base)`: returns the value and the suffix at
which parsing stopped (`*endptr`).  Mirrors the whitespace skip, the
optional sign, the `0x`/`0` base detection, and the final negation of
the source. -/
def strtoul_parse (l : List Nat) (base : Nat) : Nat × List Nat :=
  let p1 := l.dropWhile strtoul_isspace
  let sp : Bool × List Nat :=
    match p1 with
    | c :: rest =>
      if c = 43 then (false, rest) else if c = 45 then (true, rest) else (false, p1)
    | [] => (false, p1)
  let neg := sp.1
  let p2 := sp.2
  let bp : Nat × List Nat :=
    if base = 0 then
      match p2 with
      | c0 :: c1 :: rest =>
        if c0 = 48 ∧ (c1 = 120 ∨ c1 = 88) then (16, rest)
        else if c0 = 48 then (8, c1 :: rest)
        else (10, p2)
      | [c0] => if c0 = 48 then (8, []) else (10, p2)
      | [] => (10, p2)
    else if base = 16 then
      match p2 with
      | c0 :: c1 :: rest =>
        if c0 = 48 ∧ (c1 = 120 ∨ c1 = 88) then (16, rest) else (16, p2)
      | _ => (16, p2)
    else (base, p2)
  let vr := strtoul_digits bp.1 bp.2 0
  (if neg then (U32 - vr.1) % U32 else vr.1, vr.2)

/-- The token sequence that repeated `strtok(—, " ")` yields: the
maximal non-empty runs between spaces. -/
def strtok_tokens (l : List Nat) : List (List Nat) :=
  (l.splitOn 32).filter (fun t => ¬ t.isEmpty)

/-! ## Flash engine (the NVMCTRL `flash_ops.c` variant) -/

/-- The `while (row_addr < end_addr)` loop of `flash_erase_range`, with
fuel (the loop advances by a full row each iteration, so `endAddr - row`
units always suffice). -/
def erase_row_go (row endAddr : Nat) : Nat → List Nat
  | 0 => []
  | fuel + 1 =>
    if row < endAddr then row :: erase_row_go (row + FLASH_ROW_SIZE) endAddr fuel
    else []

/-- The row addresses the `ER` command is issued for by the
`while (row_addr < end_addr)` loop. -/
def erase_row_seq (row endAddr : Nat) : List Nat :=
  erase_row_go row endAddr (endAddr - row)

/-- `flash_erase_range`: align down to a row, clamp the wrapped or
oversized end at `FLASH_SIZE`, no-op on zero length; returns the erased
row addresses. -/
def flash_erase_range_rows (addr len : Nat) : List Nat :=
  let row0 := addr &&& (U32 - FLASH_ROW_SIZE)
  let end0 := (addr + len) % U32
  let endAddr := if end0 < addr ∨ FLASH_SIZE < end0 then FLASH_SIZE else end0
  if len = 0 then [] else erase_row_seq row0 endAddr

/-- The `while (addr < FLASH_SIZE)` loop of `flash_erase_application`,
fuelled (one row per iteration, so `FLASH_SIZE - addr` units suffice). -/
def erase_app_go (addr : Nat) : Nat → List Nat
  | 0 => []
  | fuel + 1 =>
    if addr < FLASH_SIZE then
      flash_erase_range_rows addr FLASH_ROW_SIZE ++ erase_app_go (addr + FLASH_ROW_SIZE) fuel
    else []

/-- The `while (addr < FLASH_SIZE)` loop of `flash_erase_application`. -/
def erase_app_loop (addr : Nat) : List Nat :=
  erase_app_go addr (FLASH_SIZE - addr)

/-- `flash_erase_application`: the row addresses it erases. -/
def flash_erase_application_rows : List Nat := erase_app_loop APP_START_ADDRESS

/-- An observable effect of the state machine: an erase of a row, a
page-buffer program commit, the validity-flag write, a CDC reply, an
invocation of the Ed25519 verifier, or the jump to the application. -/
inductive Event where
  | eraseRow (rowAddr : Nat)
  | flashWrite (addr : Nat) (data : List Nat)
  | setValidFlag
  | send (s : String)
  | verifyCall (sig digest : List Nat)
  | jump (addr : Nat)
  deriving Repr, DecidableEq

/-- The `while (remaining > 0)` page loop of `flash_write`, fuelled
(each iteration consumes at least one byte, so `data.length` units
suffice). -/
def flash_write_go (addr : Nat) (data : List Nat) : Nat → List Event
  | 0 => []
  | fuel + 1 =>
    if data.isEmpty then []
    else
      let chunk := data.take FLASH_PAGE_SIZE
      let staged := chunk ++ List.replicate (FLASH_PAGE_SIZE - chunk.length) 0xFF
      Event.flashWrite addr staged ::
        flash_write_go ((addr + FLASH_PAGE_SIZE) % U32) (data.drop FLASH_PAGE_SIZE) fuel

/-- `flash_write`: one `flashWrite` event per page commit, each carrying
the staged 64-byte page buffer (unwritten tail filled with `0xFF`). -/
def flash_write_events (addr : Nat) (data : List Nat) : List Event :=
  flash_write_go addr data data.length

/-- The page image `flash_set_app_valid_flag` stages and programs: the
page containing `APP_START_ADDRESS - 4`, all `0xFF` except the
little-endian magic at the flag's offset. -/
def flash_set_app_valid_flag_write : Nat × List Nat :=
  let flag_addr := APP_START_ADDRESS - 4
  let page_addr := flag_addr &&& (U32 - FLASH_PAGE_SIZE)
  let offset := flag_addr - page_addr
  (page_addr,
   List.replicate offset 0xFF ++
     [APP_VALID_MAGIC % U8, (APP_VALID_MAGIC >>> 8) % U8,
      (APP_VALID_MAGIC >>> 16) % U8, (APP_VALID_MAGIC >>> 24) % U8] ++
     List.replicate (FLASH_PAGE_SIZE - offset - 4) 0xFF)

/-! ## Protocol state machine (`protocol.c` in `src/minimal_libc.c`) -/

/-- The parser states `STATE_WAIT_CMD` and `STATE_WRITE_DATA`. -/
inductive ParserState where
  | waitCmd
  | writeData
  deriving Repr, DecidableEq

/-- The protocol state: parser state, command buffer (the filled prefix
of `cmd_buffer`), the write-transaction variables, and the SHA-256
context the protocol drives. -/
structure ProtState where
  parser : ParserState
  cmd : List Nat
  write_addr : Nat
  write_length : Nat
  write_expected_crc : Nat
  write_received : Nat
  crc_accum : Nat
  page : List Nat
  sha : Sha256Ctx
  deriving Repr, DecidableEq

/-- `protocol_init`. -/
def protocol_init : ProtState :=
  { parser := .waitCmd, cmd := [], write_addr := 0, write_length := 0,
    write_expected_crc := 0, write_received := 0, crc_accum := 0xFFFFFFFF,
    page := [], sha := crypto_sha256_init }

/-- The command line `handle_command` operates on: the buffer up to its
NUL terminator, with trailing CR/LF stripped. -/
def effCmd (l : List Nat) : List Nat :=
  ((l.takeWhile (fun b => b ≠ 0)).reverse.dropWhile (fun b => b = 13 ∨ b = 10)).reverse

/-- The `DONE` hex-pair decode: `strtoul(tmp, &endp, 16)` on the
two-character string must consume both characters and yield at most
`0xFF`. -/
def hex_pair_decode (c1 c2 : Nat) : Option Nat :=
  let pr := strtoul_parse [c1, c2] 16
  if pr.2 = [] ∧ pr.1 ≤ 0xFF then some pr.1 else none

/-- The 64-iteration signature-decode loop of the `DONE` handler;
`i` is the next pair index, the second argument the pairs left. -/
def sig_decode_go (hexArg : List Nat) (i : Nat) : Nat → Option (List Nat)
  | 0 => some []
  | n + 1 =>
    match hex_pair_decode (hexArg.getD (2 * i) 0) (hexArg.getD (2 * i + 1) 0) with
    | none => none
    | some b =>
      match sig_decode_go hexArg (i + 1) n with
      | none => none
      | some bs => some (b :: bs)

/-- Decode the 128-character signature argument into 64 bytes. -/
def sig_decode (hexArg : List Nat) : Option (List Nat) := sig_decode_go hexArg 0 64

/-- The events of the `DONE` dispatch once the signature is decoded:
the verifier call over the finalized digest, then either the success
triple (reply, validity flag, jump) or the `ERR SIGNATURE` reply. -/
def doneReplyEvents (sig digest : List Nat) : List Event :=
  Event.verifyCall sig digest ::
    (if crypto_ed25519_verify sig digest then
      [Event.send "OK DONE\n", Event.setValidFlag, Event.jump APP_START_ADDRESS]
    else [Event.send "ERR SIGNATURE\n"])

/-- `handle_command`: dispatch the completed command line. -/
def handle_command (s : ProtState) : ProtState × List Event :=
  let cmd := effCmd s.cmd
  if cmd = ascii "HELLO" then
    (s, [Event.send "OK BOOT v1.0\n"])
  else if cmd = ascii "ERASE APP" then
    ({ s with sha := crypto_sha256_init },
     flash_erase_application_rows.map Event.eraseRow ++ [Event.send "OK ERASE\n"])
  else if cmd.take 6 = ascii "WRITE " then
    match strtok_tokens (cmd.drop 6) with
    | addr_str :: len_str :: crc_str :: _ =>
      let addr := (strtoul_parse addr_str 0).1
      let length := (strtoul_parse len_str 0).1
      let crc := (strtoul_parse crc_str 0).1
      if addr < APP_START_ADDRESS ∨ FLASH_SIZE < (addr + length) % U32 then
        (s, [Event.send "ERR PARAM\n"])
      else
        ({ s with
            parser := .writeData
            write_addr := addr
            write_length := length
            write_expected_crc := crc
            write_received := 0
            crc_accum := 0xFFFFFFFF
            page := [] }, [])
    | _ => (s, [Event.send "ERR FORMAT\n"])
  else if cmd.take 5 = ascii "DONE " then
    let sig_hex := cmd.drop 5
    if sig_hex.length ≠ 128 then (s, [Event.send "ERR FORMAT\n"])
    else
      match sig_decode sig_hex with
      | none => (s, [Event.send "ERR FORMAT\n"])
      | some sig =>
        let fd := crypto_sha256_final s.sha
        ({ s with sha := fd.2 }, doneReplyEvents sig fd.1)
  else (s, [Event.send "ERR UNKNOWN\n"])

/-- `protocol_process_char`: one byte of input, the successor state and
the events the byte causes. -/
def protocol_process_char (s : ProtState) (c : Nat) : ProtState × List Event :=
  match s.parser with
  | .writeData =>
    let crc' := crc32_update s.crc_accum c
    let sha' := crypto_sha256_update s.sha [c]
    let page' := s.page ++ [c]
    let received' := s.write_received + 1
    let fl1 : Nat × List Nat × List Event :=
      if FLASH_PAGE_SIZE ≤ page'.length then
        ((s.write_addr + page'.length) % U32, [], flash_write_events s.write_addr page')
      else (s.write_addr, page', [])
    let addr1 := fl1.1
    let page1 := fl1.2.1
    let evs1 := fl1.2.2
    if s.write_length ≤ received' then
      let fl2 : Nat × List Nat × List Event :=
        if 0 < page1.length then
          ((addr1 + page1.length) % U32, [], flash_write_events addr1 page1)
        else (addr1, page1, [])
      let reply := if crc32_finalize crc' = s.write_expected_crc then "OK WRITE\n"
        else "ERR CRC\n"
      ({ s with
          parser := .waitCmd
          write_addr := fl2.1
          page := fl2.2.1
          sha := sha'
          write_length := 0
          write_received := 0
          crc_accum := 0xFFFFFFFF },
       evs1 ++ fl2.2.2 ++ [Event.send reply])
    else
      ({ s with
          write_addr := addr1
          page := page1
          sha := sha'
          crc_accum := crc'
          write_received := received' }, evs1)
  | .waitCmd =>
    if c = 10 then
      let he := handle_command s
      ({ he.1 with cmd := [] }, he.2)
    else if c = 13 then (s, [])
    else if s.cmd.length < 127 then ({ s with cmd := s.cmd ++ [c] }, [])
    else ({ s with cmd := [] }, [])

/-- Feed a byte sequence to the machine, collecting all events. -/
def protocol_run (s : ProtState) : List Nat → ProtState × List Event
  | [] => (s, [])
  | c :: rest =>
    let st := protocol_process_char s c
    let cont := protocol_run st.1 rest
    (cont.1, st.2 ++ cont.2)

/-! ## Claim C5: erase coverage of the validity-marker row -/

set_option maxRecDepth 1000000 in
/-- C5 counterexample: no row-erase issued by `flash_erase_application`
covers the validity-marker word at `APP_START_ADDRESS - 4`: the filter
of erased rows whose 256-byte span contains that address is empty (the
erase loop starts at `APP_START_ADDRESS`, and the marker lives in the
preceding row). -/
theorem c5_marker_row_not_erased :
    flash_erase_application_rows.filter
      (fun r => decide (r ≤ APP_START_ADDRESS - 4) &&
        decide (APP_START_ADDRESS - 4 < r + FLASH_ROW_SIZE)) = [] := by
  decide

set_option maxRecDepth 1000000 in
/-- C5 amended: `flash_erase_application` erases exactly the rows
`APP_START_ADDRESS, APP_START_ADDRESS + 256, …, FLASH_SIZE - 256`; every
erased row is at or above `APP_START_ADDRESS`, and the page that
`flash_set_app_valid_flag` later programs (the one holding the marker at
`APP_START_ADDRESS - 4`) lies wholly below `APP_START_ADDRESS`, outside
every erased row. -/
theorem c5_erase_exactly_app_region :
    flash_erase_application_rows =
      (List.range ((FLASH_SIZE - APP_START_ADDRESS) / FLASH_ROW_SIZE)).map
        (fun k => APP_START_ADDRESS + FLASH_ROW_SIZE * k) ∧
    flash_erase_application_rows.all (fun r => APP_START_ADDRESS ≤ r) = true ∧
    flash_set_app_valid_flag_write.1 = APP_START_ADDRESS - FLASH_PAGE_SIZE := by
  refine ⟨by decide, by decide, by decide⟩

/-! ## Claim C1: the WRITE range check and 32-bit overflow -/

/-- The failing input of C1: a `WRITE` whose `addr + len` wraps past
`2^32`, followed by its 4 payload bytes. -/
def c1_input : List Nat := ascii "WRITE 0xFFFFFFFC 4 0\n" ++ List.replicate 4 65

set_option maxRecDepth 1000000 in
/-- C1 failing run: the range check `(addr + length) > FLASH_SIZE` is
computed in wrapping 32-bit arithmetic, so `addr = 0xFFFFFFFC`,
`len = 4` passes validation (`0xFFFFFFFC + 4 ≡ 0 mod 2^32`), the
machine enters `WRITE_DATA` without an `ERR PARAM` reply, and the
payload is programmed at `0xFFFFFFFC`, far outside
`[APP_START_ADDRESS, FLASH_SIZE)`. -/
theorem c1_overflow_write_escapes_window :
    Event.flashWrite 0xFFFFFFFC (List.replicate 4 65 ++ List.replicate 60 0xFF)
        ∈ (protocol_run protocol_init c1_input).2 ∧
    Event.send "ERR PARAM\n" ∉ (protocol_run protocol_init c1_input).2 ∧
    FLASH_SIZE ≤ 0xFFFFFFFC := by
  refine ⟨by decide, by decide, by decide⟩


/-- There is a byte position below `n` where `s` exceeds `SC_L` while
every more significant position below `n` is at least `SC_L`'s byte:
the condition under which the `sc_check` loop raises `gt`. -/
def byteGT (s : List Nat) (n : Nat) : Prop :=
  ∃ j, j < n ∧ SC_L.getD j 0 < s.getD j 0 ∧
    ∀ m, j < m → m < n → SC_L.getD m 0 ≤ s.getD m 0

/-- Some byte of `s` below position `n` is below `SC_L`'s byte: the
condition under which the loop raises `c`. -/
def byteLT (s : List Nat) (n : Nat) : Prop :=
  ∃ j, j < n ∧ s.getD j 0 < SC_L.getD j 0

/-- Peeling the most significant position off `byteGT`. -/
theorem byteGT_succ (s : List Nat) (n : Nat) :
    byteGT s (n + 1) ↔
      (SC_L.getD n 0 < s.getD n 0 ∨ (SC_L.getD n 0 ≤ s.getD n 0 ∧ byteGT s n)) := by
  constructor
  · rintro ⟨j, hj, hls, hall⟩
    rcases Nat.lt_succ_iff_lt_or_eq.mp hj with hj' | rfl
    · right
      exact ⟨hall n hj' (Nat.lt_succ_self n),
        ⟨j, hj', hls, fun m h1 h2 => hall m h1 (Nat.lt_succ_of_lt h2)⟩⟩
    · exact Or.inl hls
  · rintro (h | ⟨hle, j, hj, hls, hall⟩)
    · exact ⟨n, Nat.lt_succ_self n, h,
        fun m h1 h2 => absurd h1 (Nat.not_lt.mpr (Nat.lt_succ_iff.mp h2))⟩
    · refine ⟨j, Nat.lt_succ_of_lt hj, hls, fun m h1 h2 => ?_⟩
      rcases Nat.lt_succ_iff_lt_or_eq.mp h2 with h2' | rfl
      · exact hall m h1 h2'
      · exact hle

/-- Peeling the most significant position off `byteLT`. -/
theorem byteLT_succ (s : List Nat) (n : Nat) :
    byteLT s (n + 1) ↔ (s.getD n 0 < SC_L.getD n 0 ∨ byteLT s n) := by
  constructor
  · rintro ⟨j, hj, h⟩
    rcases Nat.lt_succ_iff_lt_or_eq.mp hj with hj' | rfl
    · exact Or.inr ⟨j, hj', h⟩
    · exact Or.inl h
  · rintro (h | ⟨j, hj, h⟩)
    · exact ⟨n, Nat.lt_succ_self n, h⟩
    · exact ⟨j, Nat.lt_succ_of_lt hj, h⟩

/-- The invariant of the `sc_check` loop: starting from flags
`(c, gt) ∈ {0,1}` with `i` positions left to scan, the final `gt` is
raised iff it was already raised, or no more significant scan raised `c`
and `byteGT` holds on the remaining positions; likewise for `c`. -/
theorem sc_check_loop_spec (s : List Nat) :
    ∀ i c gt, c ≤ 1 → gt ≤ 1 →
      (((sc_check_loop s i (c, gt)).2 = 1 ↔
          (gt = 1 ∨ (c = 0 ∧ byteGT s i))) ∧
        ((sc_check_loop s i (c, gt)).1 = 1 ↔ (c = 1 ∨ byteLT s i)) ∧
        (sc_check_loop s i (c, gt)).1 ≤ 1 ∧ (sc_check_loop s i (c, gt)).2 ≤ 1) := by
  intro i
  induction i with
  | zero =>
    intro c gt hc hgt
    refine ⟨by simp [sc_check_loop, byteGT], by simp [sc_check_loop, byteLT], hc, hgt⟩
  | succ n ih =>
    intro c gt hc hgt
    have hstep : sc_check_loop s (n + 1) (c, gt) =
        sc_check_loop s n ((if s.getD n 0 < SC_L.getD n 0 then 1 else c),
          (if SC_L.getD n 0 < s.getD n 0 ∧ c = 0 then 1 else gt)) := rfl
    set c' := (if s.getD n 0 < SC_L.getD n 0 then 1 else c) with hcdef
    set gt' := (if SC_L.getD n 0 < s.getD n 0 ∧ c = 0 then 1 else gt) with hgtdef
    have hc1 : c' ≤ 1 := by rw [hcdef]; split <;> omega
    have hgt1 : gt' ≤ 1 := by rw [hgtdef]; split <;> omega
    obtain ⟨ih2, ih1, ihb1, ihb2⟩ := ih c' gt' hc1 hgt1
    rw [hstep]
    refine ⟨?_, ?_, ihb1, ihb2⟩
    · rw [ih2, byteGT_succ]
      set a := s.getD n 0 with ha
      set b := SC_L.getD n 0 with hb
      by_cases h1 : a < b
      · by_cases h3 : c = 0 <;>
          simp [hcdef, hgtdef, h1, h3, Nat.lt_asymm h1, Nat.not_le_of_lt h1]
      · by_cases h2 : b < a
        · by_cases h3 : c = 0 <;>
            simp [hcdef, hgtdef, h1, h2, h3, Nat.le_of_lt h2]
        · have h4 : b ≤ a := by omega
          by_cases h3 : c = 0 <;>
            simp [hcdef, hgtdef, h1, h2, h3, h4]
    · rw [ih1, byteLT_succ]
      set a := s.getD n 0 with ha
      set b := SC_L.getD n 0 with hb
      by_cases h1 : a < b <;>
        by_cases h3 : c = 0 <;>
        simp [hcdef, hgtdef, h1, h3]

/-- The little-endian value of the first `n` bytes of `s`. -/
def leval (s : List Nat) : Nat → Nat
  | 0 => 0
  | n + 1 => leval s n + s.getD n 0 * 256 ^ n

/-- Every byte read from `SC_L` (default 0 past the end) is below 256. -/
theorem SC_L_byte_lt (j : Nat) : SC_L.getD j 0 < 256 := by
  by_cases h : j < 32
  · revert h
    revert j
    decide
  · rw [List.getD_eq_default]
    · omega
    · simp only [SC_L, List.length]
      omega

/-- The value of `n` bytes is below `256^n`. -/
theorem leval_lt (s : List Nat) (n : Nat) (hb : ∀ j, j < n → s.getD j 0 < 256) :
    leval s n < 256 ^ n := by
  induction n with
  | zero => simp [leval]
  | succ m ih =>
    have h1 : leval s m < 256 ^ m := ih (fun j hj => hb j (Nat.lt_succ_of_lt hj))
    have h2 : s.getD m 0 < 256 := hb m (Nat.lt_succ_self m)
    have h3 : s.getD m 0 * 256 ^ m ≤ 255 * 256 ^ m :=
      Nat.mul_le_mul_right _ (by omega)
    calc leval s (m + 1) = leval s m + s.getD m 0 * 256 ^ m := rfl
      _ < 256 ^ m + 255 * 256 ^ m := by omega
      _ = 256 ^ (m + 1) := by ring

/-- The loop's `byteGT` condition is exactly strict numeric dominance of
the little-endian values. -/
theorem byteGT_iff_leval (s : List Nat) (n : Nat)
    (hb : ∀ j, j < n → s.getD j 0 < 256) :
    byteGT s n ↔ leval SC_L n < leval s n := by
  induction n with
  | zero => simp [byteGT, leval]
  | succ m ih =>
    have hbm : ∀ j, j < m → s.getD j 0 < 256 := fun j hj => hb j (Nat.lt_succ_of_lt hj)
    have hsm : leval s m < 256 ^ m := leval_lt s m hbm
    have hLm : leval SC_L m < 256 ^ m := leval_lt SC_L m (fun j _ => SC_L_byte_lt j)
    rw [byteGT_succ]
    show _ ↔ leval SC_L m + SC_L.getD m 0 * 256 ^ m < leval s m + s.getD m 0 * 256 ^ m
    rcases Nat.lt_trichotomy (s.getD m 0) (SC_L.getD m 0) with h | h | h
    · have hlhs : ¬ (SC_L.getD m 0 < s.getD m 0 ∨
          (SC_L.getD m 0 ≤ s.getD m 0 ∧ byteGT s m)) := by
        rintro (h2 | ⟨h2, _⟩) <;> omega
      have hm1 : s.getD m 0 * 256 ^ m + 256 ^ m ≤ SC_L.getD m 0 * 256 ^ m := by
        have h5 : (s.getD m 0 + 1) * 256 ^ m ≤ SC_L.getD m 0 * 256 ^ m :=
          Nat.mul_le_mul_right _ (by omega)
        calc s.getD m 0 * 256 ^ m + 256 ^ m = (s.getD m 0 + 1) * 256 ^ m := by ring
          _ ≤ _ := h5
      exact ⟨fun hcon => absurd hcon hlhs, fun hlt => absurd hlt (by omega)⟩
    · rw [h, Nat.add_lt_add_iff_right]
      have h5 : ¬ SC_L.getD m 0 < SC_L.getD m 0 := by omega
      simp only [h5, false_or, le_refl, true_and]
      exact ih hbm
    · have hm1 : SC_L.getD m 0 * 256 ^ m + 256 ^ m ≤ s.getD m 0 * 256 ^ m := by
        have h5 : (SC_L.getD m 0 + 1) * 256 ^ m ≤ s.getD m 0 * 256 ^ m :=
          Nat.mul_le_mul_right _ (by omega)
        calc SC_L.getD m 0 * 256 ^ m + 256 ^ m = (SC_L.getD m 0 + 1) * 256 ^ m := by ring
          _ ≤ _ := h5
      have hlhs : SC_L.getD m 0 < s.getD m 0 ∨
          (SC_L.getD m 0 ≤ s.getD m 0 ∧ byteGT s m) := Or.inl h
      exact ⟨fun _ => by omega, fun _ => hlhs⟩

/-- The Ed25519 group order `L`. -/
def ed25519_L : Nat := 2 ^ 252 + 27742317777372353535851937790883648493

/-- `sc_check` flags exactly the scalars strictly greater than `L`. -/
theorem sc_check_iff_gt (s : List Nat) (hb : ∀ j, j < 32 → s.getD j 0 < 256) :
    sc_check s ≠ 0 ↔ ed25519_L < leval s 32 := by
  obtain ⟨h2, _, _, hb2⟩ := sc_check_loop_spec s 32 0 0 (by omega) (by omega)
  have hL : leval SC_L 32 = ed25519_L := by decide
  unfold sc_check
  rw [← hL, ← byteGT_iff_leval s 32 hb]
  constructor
  · intro hne
    have h1 : (sc_check_loop s 32 (0, 0)).2 = 1 := by omega
    rcases h2.mp h1 with h | h
    · omega
    · exact h.2
  · intro hgt
    have h1 : (sc_check_loop s 32 (0, 0)).2 = 1 := h2.mpr (Or.inr ⟨rfl, hgt⟩)
    omega

/-! ## Claim C4: `sc_check` versus the group order -/

/-- C4 amended: for every 32-byte input whose bytes are below 256,
`sc_check` flags the scalar iff its little-endian value is STRICTLY
greater than `L` (not `≥ L` as claimed: the boundary `s = L` passes). -/
theorem c4_sc_check_iff_strictly_greater (s : List Nat) (hlen : s.length = 32)
    (hb : ∀ j, j < 32 → s.getD j 0 < 256) :
    sc_check s ≠ 0 ↔ ed25519_L < leval s 32 :=
  sc_check_iff_gt s hb

/-- C4 counterexample: the input equal to `L` itself satisfies
`s ≥ L`, yet `sc_check` returns 0 (not flagged), refuting the claimed
`s ≥ L` characterisation. -/
theorem c4_equal_L_not_flagged :
    sc_check SC_L = 0 ∧ leval SC_L 32 = ed25519_L ∧ SC_L.length = 32 :=
  ⟨by decide, by decide, by decide⟩

/-- C4 witness: the amended theorem applied at the all-`0xFF` scalar. -/
theorem c4_sc_check_witness :
    (List.replicate 32 255 : List Nat).length = 32 ∧
    (sc_check (List.replicate 32 255) ≠ 0 ↔
      ed25519_L < leval (List.replicate 32 255) 32) :=
  ⟨by decide, c4_sc_check_iff_strictly_greater (List.replicate 32 255)
    (by decide) (by decide)⟩



theorem flash_write_go_nil (a : Nat) (fuel : Nat) : flash_write_go a [] fuel = [] := by
  cases fuel <;> simp [flash_write_go]

/-- The `STATE_WRITE_DATA` step in closed form: the two flush sites of
the source (the page-full flush and the final partial flush) combine to
a single `flash_write_events` of the accumulated page, followed by the
CRC verdict on block completion. -/
theorem protocol_write_byte_cases (s : ProtState) (c : Nat)
    (hp : s.parser = ParserState.writeData) :
    protocol_process_char s c =
      (if s.write_length ≤ s.write_received + 1 then
        ({ s with
            parser := ParserState.waitCmd
            write_addr := (s.write_addr + (s.page ++ [c]).length) % U32
            page := []
            sha := crypto_sha256_update s.sha [c]
            write_length := 0
            write_received := 0
            crc_accum := 0xFFFFFFFF },
         flash_write_events s.write_addr (s.page ++ [c]) ++
           [Event.send (if crc32_finalize (crc32_update s.crc_accum c) = s.write_expected_crc
             then "OK WRITE\n" else "ERR CRC\n")])
      else if FLASH_PAGE_SIZE ≤ (s.page ++ [c]).length then
        ({ s with
            write_addr := (s.write_addr + (s.page ++ [c]).length) % U32
            page := []
            sha := crypto_sha256_update s.sha [c]
            crc_accum := crc32_update s.crc_accum c
            write_received := s.write_received + 1 },
         flash_write_events s.write_addr (s.page ++ [c]))
      else
        ({ s with
            page := s.page ++ [c]
            sha := crypto_sha256_update s.sha [c]
            crc_accum := crc32_update s.crc_accum c
            write_received := s.write_received + 1 }, [])) := by
  obtain ⟨par, cmd, wa, wl, wc, wr, ca, pg, sh⟩ := s
  simp only at hp
  subst hp
  by_cases hterm : wl ≤ wr + 1 <;> by_cases hfull : FLASH_PAGE_SIZE ≤ (pg ++ [c]).length <;>
    simp only [protocol_process_char, hterm, hfull, if_true, if_false, ite_true, ite_false,
      if_pos, if_neg, not_true, not_false_iff] <;>
    simp [hterm, hfull, flash_write_go_nil]

theorem flash_write_events_single (a : Nat) (d : List Nat) (h1 : d ≠ [])
    (h2 : d.length ≤ FLASH_PAGE_SIZE) :
    flash_write_events a d =
      [Event.flashWrite a (d ++ List.replicate (FLASH_PAGE_SIZE - d.length) 0xFF)] := by
  unfold flash_write_events
  obtain ⟨c, d', rfl⟩ : ∃ c d', d = c :: d' := by
    cases d with
    | nil => exact absurd rfl h1
    | cons c d' => exact ⟨c, d', rfl⟩
  have htake : (c :: d').take FLASH_PAGE_SIZE = c :: d' := List.take_of_length_le h2
  have hdrop : (c :: d').drop FLASH_PAGE_SIZE = [] := List.drop_eq_nil_of_le h2
  rw [List.length_cons]
  simp only [flash_write_go, List.isEmpty_cons, Bool.false_eq_true, if_false]
  rw [htake, hdrop, flash_write_go_nil]
  simp

/-- The validity flag is never written by the page-program loop. -/
theorem setValidFlag_not_mem_flash_write_go (fuel : Nat) :
    ∀ a d, Event.setValidFlag ∉ flash_write_go a d fuel := by
  induction fuel with
  | zero => intro a d; simp [flash_write_go]
  | succ n ih =>
    intro a d
    simp only [flash_write_go]
    split
    · simp
    · intro hmem
      rcases List.mem_cons.mp hmem with h | h
      · exact Event.noConfusion h
      · exact ih _ _ h

/-- C6: on the byte that completes a WRITE transaction (write_received + 1
reaches write_length), the machine flushes the accumulated page —
whether the byte exactly fills it (zero padding) or leaves it partial
(0xFF padding) — to flash first, then replies "OK WRITE" iff the
finalized running CRC-32 equals the host-declared expected CRC and
"ERR CRC" otherwise, resets the transaction fields and returns to
WAIT_CMD.  The page bound is the parser's invariant: the staging buffer
is flushed whenever it reaches a full page, so it always holds fewer
than FLASH_PAGE_SIZE bytes. -/
theorem c6_last_byte_commits_then_replies (s : ProtState) (c : Nat)
    (hp : s.parser = ParserState.writeData)
    (hlast : s.write_length ≤ s.write_received + 1)
    (hpage : s.page.length < FLASH_PAGE_SIZE) :
    protocol_process_char s c =
      ({ s with
          parser := ParserState.waitCmd
          write_addr := (s.write_addr + (s.page.length + 1)) % U32
          page := []
          sha := crypto_sha256_update s.sha [c]
          write_length := 0
          write_received := 0
          crc_accum := 0xFFFFFFFF },
       [Event.flashWrite s.write_addr
          ((s.page ++ [c]) ++ List.replicate (FLASH_PAGE_SIZE - (s.page.length + 1)) 0xFF),
        Event.send (if crc32_finalize (crc32_update s.crc_accum c) = s.write_expected_crc
          then "OK WRITE\n" else "ERR CRC\n")]) := by
  rw [protocol_write_byte_cases s c hp, if_pos hlast]
  rw [flash_write_events_single _ _ (by simp) (by simp; omega)]
  simp


/-- Concrete write-data state at the boundary the page loop flushes on:
63 bytes already staged, so the final byte exactly fills the page. -/
def c6state : ProtState :=
  { protocol_init with
      parser := ParserState.writeData
      write_addr := 0x2000
      write_length := 64
      write_received := 63
      page := List.replicate 63 0 }

theorem c6_last_byte_witness :
    protocol_process_char c6state 65 =
      ({ c6state with
          parser := ParserState.waitCmd
          write_addr := (c6state.write_addr + (c6state.page.length + 1)) % U32
          page := []
          sha := crypto_sha256_update c6state.sha [65]
          write_length := 0
          write_received := 0
          crc_accum := 0xFFFFFFFF },
       [Event.flashWrite c6state.write_addr
          ((c6state.page ++ [65]) ++
            List.replicate (FLASH_PAGE_SIZE - (c6state.page.length + 1)) 0xFF),
        Event.send (if crc32_finalize (crc32_update c6state.crc_accum 65) =
            c6state.write_expected_crc
          then "OK WRITE\n" else "ERR CRC\n")]) :=
  c6_last_byte_commits_then_replies c6state 65 rfl (by decide) (by decide)


theorem setValidFlag_not_mem_fwe (a : Nat) (d : List Nat) :
    Event.setValidFlag ∉ flash_write_events a d :=
  setValidFlag_not_mem_flash_write_go _ _ _

theorem setValidFlag_handle_command (s : ProtState) :
    Event.setValidFlag ∉ (handle_command s).2 ∨
    ((effCmd s.cmd).take 5 = ascii "DONE " ∧
      ∃ sig, sig_decode ((effCmd s.cmd).drop 5) = some sig ∧
        crypto_ed25519_verify sig (crypto_sha256_final s.sha).1 = true ∧
        (handle_command s).2 =
          [Event.verifyCall sig (crypto_sha256_final s.sha).1,
           Event.send "OK DONE\n", Event.setValidFlag,
           Event.jump APP_START_ADDRESS]) := by
  unfold handle_command
  dsimp only
  split_ifs with h1 h2 h3 h4 h5
  · left; simp
  · left; simp [List.mem_append, List.mem_map]
  · left
    split
    · split_ifs <;> simp
    · simp
  · left; simp
  · cases hdec : sig_decode ((effCmd s.cmd).drop 5) with
    | none => left; simp [hdec]
    | some sig =>
      by_cases hv : crypto_ed25519_verify sig (crypto_sha256_final s.sha).1 = true
      · right
        exact ⟨h4, sig, rfl, hv, by simp [doneReplyEvents, hv]⟩
      · left
        simp [doneReplyEvents, hv]
  · left; simp

/-- C2: the validity flag is written only by an authenticated `DONE`: for
every state and input byte, either the step emits no `setValidFlag`
event at all, or the byte is the newline completing a command whose line
starts with `DONE `, whose 128-hex argument decodes to a signature that
the Ed25519 verifier accepts over the finalized image digest, and the
step's events are exactly the success sequence (verifier call, `OK DONE`
reply, flag write, jump); every error path emits no flag write. -/
theorem c2_valid_flag_only_after_authenticated_done (s : ProtState) (c : Nat) :
    Event.setValidFlag ∉ (protocol_process_char s c).2 ∨
    (s.parser = ParserState.waitCmd ∧ c = 10 ∧
      (effCmd s.cmd).take 5 = ascii "DONE " ∧
      ∃ sig, sig_decode ((effCmd s.cmd).drop 5) = some sig ∧
        crypto_ed25519_verify sig (crypto_sha256_final s.sha).1 = true ∧
        (protocol_process_char s c).2 =
          [Event.verifyCall sig (crypto_sha256_final s.sha).1,
           Event.send "OK DONE\n", Event.setValidFlag,
           Event.jump APP_START_ADDRESS]) := by
  cases hpar : s.parser with
  | writeData =>
    left
    rw [protocol_write_byte_cases s c hpar]
    split_ifs <;> simp [List.mem_append, setValidFlag_not_mem_fwe]
  | waitCmd =>
    by_cases hc : c = 10
    · subst hc
      have hred : (protocol_process_char s 10).2 = (handle_command s).2 := by
        simp [protocol_process_char, hpar]
      rcases setValidFlag_handle_command s with h | ⟨hd, sig, hdec, hv, hev⟩
      · left; rw [hred]; exact h
      · right; exact ⟨rfl, rfl, hd, sig, hdec, hv, by rw [hred]; exact hev⟩
    · left
      simp only [protocol_process_char, hpar]
      split_ifs <;> simp_all


/-- C9: a `WRITE <addr> 0 <crc>` line that passes the range check is
accepted silently — the machine enters `WRITE_DATA` and emits no event —
and the next byte from the host immediately completes the transaction:
it is folded into the block CRC and the image SHA-256, programmed to
flash at the requested address (page padded with `0xFF`), and only then
the terminal `OK WRITE` / `ERR CRC` reply is sent.  A zero-length
`WRITE` therefore consumes and commits one extra byte. -/
theorem c9_zero_length_write_consumes_one_byte (s : ProtState)
    (addr crc : Nat) (ta tb tc : List Nat) (rest : List (List Nat))
    (hp : s.parser = ParserState.waitCmd)
    (hw : (effCmd s.cmd).take 6 = ascii "WRITE ")
    (htok : strtok_tokens ((effCmd s.cmd).drop 6) = ta :: tb :: tc :: rest)
    (hta : (strtoul_parse ta 0).1 = addr)
    (htb : (strtoul_parse tb 0).1 = 0)
    (htc : (strtoul_parse tc 0).1 = crc)
    (hlo : APP_START_ADDRESS ≤ addr)
    (hhi : (addr + 0) % U32 ≤ FLASH_SIZE) :
    protocol_process_char s 10 =
      ({ s with
          parser := ParserState.writeData
          cmd := []
          write_addr := addr
          write_length := 0
          write_expected_crc := crc
          write_received := 0
          crc_accum := 0xFFFFFFFF
          page := [] }, []) ∧
    ∀ c : Nat,
      protocol_process_char
        { s with
            parser := ParserState.writeData
            cmd := []
            write_addr := addr
            write_length := 0
            write_expected_crc := crc
            write_received := 0
            crc_accum := 0xFFFFFFFF
            page := [] } c =
        ({ s with
            parser := ParserState.waitCmd
            cmd := []
            write_addr := (addr + 1) % U32
            write_length := 0
            write_expected_crc := crc
            write_received := 0
            crc_accum := 0xFFFFFFFF
            page := []
            sha := crypto_sha256_update s.sha [c] },
         [Event.flashWrite addr ([c] ++ List.replicate (FLASH_PAGE_SIZE - 1) 0xFF),
          Event.send (if crc32_finalize (crc32_update 0xFFFFFFFF c) = crc
            then "OK WRITE\n" else "ERR CRC\n")]) := by
  have hne1 : effCmd s.cmd ≠ ascii "HELLO" := by
    intro contra; rw [contra] at hw; exact absurd hw (by decide)
  have hne2 : effCmd s.cmd ≠ ascii "ERASE APP" := by
    intro contra; rw [contra] at hw; exact absurd hw (by decide)
  have hguard : ¬ (addr < APP_START_ADDRESS ∨ FLASH_SIZE < (addr + 0) % U32) := by
    push_neg
    exact ⟨hlo, hhi⟩
  constructor
  · simp only [protocol_process_char, hp, if_pos rfl]
    unfold handle_command
    dsimp only
    rw [if_neg hne1, if_neg hne2, if_pos hw]
    simp only [htok, hta, htb, htc, if_neg hguard]
    simp
  · intro c
    rw [protocol_write_byte_cases _ c rfl]
    rw [if_pos (by simp)]
    rw [flash_write_events_single _ _ (by simp) (by simp [FLASH_PAGE_SIZE])]
    simp

/-- A wait-state machine whose command buffer holds `WRITE 0x2000 0 0`. -/
def c9state : ProtState :=
  { protocol_init with cmd := ascii "WRITE 0x2000 0 0" }

theorem c9_zero_length_write_witness :
    protocol_process_char c9state 10 =
      ({ c9state with
          parser := ParserState.writeData
          cmd := []
          write_addr := 0x2000
          write_length := 0
          write_expected_crc := 0
          write_received := 0
          crc_accum := 0xFFFFFFFF
          page := [] }, []) ∧
    ∀ c : Nat,
      protocol_process_char
        { c9state with
            parser := ParserState.writeData
            cmd := []
            write_addr := 0x2000
            write_length := 0
            write_expected_crc := 0
            write_received := 0
            crc_accum := 0xFFFFFFFF
            page := [] } c =
        ({ c9state with
            parser := ParserState.waitCmd
            cmd := []
            write_addr := (0x2000 + 1) % U32
            write_length := 0
            write_expected_crc := 0
            write_received := 0
            crc_accum := 0xFFFFFFFF
            page := []
            sha := crypto_sha256_update c9state.sha [c] },
         [Event.flashWrite 0x2000 ([c] ++ List.replicate (FLASH_PAGE_SIZE - 1) 0xFF),
          Event.send (if crc32_finalize (crc32_update 0xFFFFFFFF c) = 0
            then "OK WRITE\n" else "ERR CRC\n")]) :=
  c9_zero_length_write_consumes_one_byte c9state 0x2000 0
    (ascii "0x2000") (ascii "0") (ascii "0") []
    rfl (by decide) (by decide) (by decide) (by decide) (by decide)
    (by decide) (by decide)


/-- The 128-character `DONE` argument made of 64 copies of the pair
`0x` — every second character is `x`, not a hex digit. -/
def c8arg : List Nat := (List.replicate 64 [48, 120]).flatten

/-- A wait-state machine whose command buffer holds `DONE` followed by
that argument. -/
def c8state : ProtState :=
  { protocol_init with cmd := ascii "DONE " ++ c8arg }

set_option maxRecDepth 100000 in
theorem c8_done_hex_check_counterexample :
    hex_pair_decode 48 120 = some 0 ∧
    (120 ∈ (effCmd c8state.cmd).drop 5 ∧ ((effCmd c8state.cmd).drop 5).length = 128) ∧
    Event.send "ERR FORMAT\n" ∉ (handle_command c8state).2 ∧
    Event.verifyCall (List.replicate 64 0) (crypto_sha256_final c8state.sha).1
      ∈ (handle_command c8state).2 := by
  have hred : (handle_command c8state).2 =
      doneReplyEvents (List.replicate 64 0) (crypto_sha256_final c8state.sha).1 := by
    unfold handle_command
    dsimp only
    rw [if_neg (by decide), if_neg (by decide), if_neg (by decide), if_pos (by decide),
      if_neg (by decide)]
    simp only [show sig_decode ((effCmd c8state.cmd).drop 5) = some (List.replicate 64 0)
      from by decide]
  refine ⟨by decide, by decide, ?_, ?_⟩
  · rw [hred]
    unfold doneReplyEvents
    cases hv : crypto_ed25519_verify (List.replicate 64 0)
        (crypto_sha256_final c8state.sha).1 <;> simp
  · rw [hred]
    unfold doneReplyEvents
    exact List.mem_cons_self _ _

/-- C8 (amended): a `DONE` line replies `ERR FORMAT` exactly when the
argument's length is not 128 or the 64-iteration pair decode fails; when
the decode succeeds the verifier is invoked on the decoded bytes.  The
decode accepts any pair `strtoul(·,16)` fully consumes with value at
most `0xFF` — including pairs such as `0x` that contain a non-hex
character — so "every character is a hex digit" is not required. -/
theorem c8_done_dispatch_by_decode (s : ProtState)
    (hd : (effCmd s.cmd).take 5 = ascii "DONE ") :
    ((((effCmd s.cmd).drop 5).length ≠ 128 ∨
        sig_decode ((effCmd s.cmd).drop 5) = none) →
      (handle_command s).2 = [Event.send "ERR FORMAT\n"]) ∧
    (∀ sig, ((effCmd s.cmd).drop 5).length = 128 →
      sig_decode ((effCmd s.cmd).drop 5) = some sig →
      (handle_command s).2 =
        doneReplyEvents sig (crypto_sha256_final s.sha).1) := by
  have hne1 : effCmd s.cmd ≠ ascii "HELLO" := by
    intro contra
    rw [contra] at hd
    exact absurd hd (by decide)
  have hne2 : effCmd s.cmd ≠ ascii "ERASE APP" := by
    intro contra
    rw [contra] at hd
    exact absurd hd (by decide)
  have hne3 : (effCmd s.cmd).take 6 ≠ ascii "WRITE " := by
    intro contra
    have : (effCmd s.cmd).take 5 = ((effCmd s.cmd).take 6).take 5 := by
      rw [List.take_take]
      norm_num
    rw [contra] at this
    rw [hd] at this
    exact absurd this (by decide)
  constructor
  · intro herr
    unfold handle_command
    dsimp only
    rw [if_neg hne1, if_neg hne2, if_neg hne3, if_pos hd]
    rcases herr with hlen | hdec
    · rw [if_pos hlen]
    · by_cases hlen : ((effCmd s.cmd).drop 5).length ≠ 128
      · rw [if_pos hlen]
      · rw [if_neg hlen]
        simp only [hdec]
  · intro sig hlen hdec
    unfold handle_command
    dsimp only
    rw [if_neg hne1, if_neg hne2, if_neg hne3, if_pos hd,
      if_neg (by omega : ¬ ((effCmd s.cmd).drop 5).length ≠ 128)]
    simp only [hdec]

set_option maxRecDepth 100000 in
theorem c8_done_dispatch_by_decode_witness :
    (effCmd c8state.cmd).take 5 = ascii "DONE " ∧
    (((((effCmd c8state.cmd).drop 5).length ≠ 128 ∨
        sig_decode ((effCmd c8state.cmd).drop 5) = none) →
      (handle_command c8state).2 = [Event.send "ERR FORMAT\n"]) ∧
    (∀ sig, ((effCmd c8state.cmd).drop 5).length = 128 →
      sig_decode ((effCmd c8state.cmd).drop 5) = some sig →
      (handle_command c8state).2 =
        doneReplyEvents sig (crypto_sha256_final c8state.sha).1)) :=
  ⟨by decide, c8_done_dispatch_by_decode c8state (by decide)⟩


/-- `crypto_sha256_final` always leaves the zeroed context behind. -/
theorem sha256_final_zeroes (ctx : Sha256Ctx) :
    (crypto_sha256_final ctx).2 = sha256_zero_ctx := by
  unfold crypto_sha256_final
  dsimp only
  split_ifs <;> rfl

/-- `handle_command` on a well-formed `DONE` line: the machine stores
the finalized (zeroed) context back and emits the verifier-driven
events. -/
theorem handle_command_done (s : ProtState) (sig : List Nat)
    (hd : (effCmd s.cmd).take 5 = ascii "DONE ")
    (hlen : ((effCmd s.cmd).drop 5).length = 128)
    (hdec : sig_decode ((effCmd s.cmd).drop 5) = some sig) :
    handle_command s =
      ({ s with sha := (crypto_sha256_final s.sha).2 },
       doneReplyEvents sig (crypto_sha256_final s.sha).1) := by
  have hne1 : effCmd s.cmd ≠ ascii "HELLO" := by
    intro contra; rw [contra] at hd; exact absurd hd (by decide)
  have hne2 : effCmd s.cmd ≠ ascii "ERASE APP" := by
    intro contra; rw [contra] at hd; exact absurd hd (by decide)
  have hne3 : (effCmd s.cmd).take 6 ≠ ascii "WRITE " := by
    intro contra
    have : (effCmd s.cmd).take 5 = ((effCmd s.cmd).take 6).take 5 := by
      rw [List.take_take]
      norm_num
    rw [contra] at this
    rw [hd] at this
    exact absurd this (by decide)
  unfold handle_command
  dsimp only
  rw [if_neg hne1, if_neg hne2, if_neg hne3, if_pos hd,
    if_neg (by omega : ¬ ((effCmd s.cmd).drop 5).length ≠ 128)]
  simp only [hdec]

/-- C10: a `DONE` whose signature fails verification has already
finalized the image hash and left the SHA-256 context zeroed — not
re-initialized — so its events are exactly the verifier call and the
`ERR SIGNATURE` reply, and any later `DONE` issued on the resulting
context verifies against the digest of the zeroed context rather than
the digest of the streamed image. -/
theorem c10_failed_done_consumes_hash_state (s : ProtState) (sig : List Nat)
    (hd : (effCmd s.cmd).take 5 = ascii "DONE ")
    (hlen : ((effCmd s.cmd).drop 5).length = 128)
    (hdec : sig_decode ((effCmd s.cmd).drop 5) = some sig)
    (hv : crypto_ed25519_verify sig (crypto_sha256_final s.sha).1 = false) :
    (handle_command s).1.sha = sha256_zero_ctx ∧
    sha256_zero_ctx ≠ crypto_sha256_init ∧
    (handle_command s).2 =
      [Event.verifyCall sig (crypto_sha256_final s.sha).1,
       Event.send "ERR SIGNATURE\n"] ∧
    (∀ s2 : ProtState, ∀ sig2 : List Nat,
      s2.sha = (handle_command s).1.sha →
      (effCmd s2.cmd).take 5 = ascii "DONE " →
      ((effCmd s2.cmd).drop 5).length = 128 →
      sig_decode ((effCmd s2.cmd).drop 5) = some sig2 →
      (handle_command s2).2 =
        doneReplyEvents sig2 (crypto_sha256_final sha256_zero_ctx).1) := by
  have h1 := handle_command_done s sig hd hlen hdec
  refine ⟨?_, by decide, ?_, ?_⟩
  · rw [h1]
    exact sha256_final_zeroes s.sha
  · rw [h1]
    simp [doneReplyEvents, hv]
  · intro s2 sig2 hsha2 hd2 hlen2 hdec2
    rw [handle_command_done s2 sig2 hd2 hlen2 hdec2]
    rw [hsha2, h1]
    dsimp only
    rw [sha256_final_zeroes s.sha]

set_option maxRecDepth 100000 in
theorem c10_failed_done_witness :
    (effCmd c8state.cmd).take 5 = ascii "DONE " ∧
    ((effCmd c8state.cmd).drop 5).length = 128 ∧
    sig_decode ((effCmd c8state.cmd).drop 5) = some (List.replicate 64 0) ∧
    crypto_ed25519_verify (List.replicate 64 0)
      (crypto_sha256_final c8state.sha).1 = false ∧
    ((handle_command c8state).1.sha = sha256_zero_ctx ∧
    sha256_zero_ctx ≠ crypto_sha256_init ∧
    (handle_command c8state).2 =
      [Event.verifyCall (List.replicate 64 0) (crypto_sha256_final c8state.sha).1,
       Event.send "ERR SIGNATURE\n"] ∧
    (∀ s2 : ProtState, ∀ sig2 : List Nat,
      s2.sha = (handle_command c8state).1.sha →
      (effCmd s2.cmd).take 5 = ascii "DONE " →
      ((effCmd s2.cmd).drop 5).length = 128 →
      sig_decode ((effCmd s2.cmd).drop 5) = some sig2 →
      (handle_command s2).2 =
        doneReplyEvents sig2 (crypto_sha256_final sha256_zero_ctx).1)) :=
  ⟨by decide, by decide, by decide, crypto_ed25519_verify_false _ _,
   c10_failed_done_consumes_hash_state c8state (List.replicate 64 0)
     (by decide) (by decide) (by decide) (crypto_ed25519_verify_false _ _)⟩


/-- C3: the verifier accepts nothing: for every signature and message
hash it returns false, because the compiled-in public key fails point
decompression (`fe51_pow22523` multiplies by the stale `t0` instead of
`z` in its final step, so the square-root candidate is wrong and the
`vxx` check rejects).  The claimed acceptance of all valid triples for
the built-in key therefore fails. -/
theorem c3_verify_rejects_everything :
    (∀ signature hash : List Nat, crypto_ed25519_verify signature hash = false) ∧
    ge_frombytes ZK_PUBKEY = none :=
  ⟨crypto_ed25519_verify_false, ge_frombytes_pubkey_none⟩

/-! ## Claim C7: SHA-256 streaming and the FIPS reference -/

theorem sha256_blocks_go_congr :
    ∀ fuel f2 (hs data : List Nat), data.length ≤ fuel → data.length ≤ f2 →
      sha256_blocks_go hs data fuel = sha256_blocks_go hs data f2 := by
  intro fuel
  induction fuel with
  | zero =>
    intro f2 hs data h1 h2
    have hd : data = [] := List.eq_nil_of_length_eq_zero (by omega)
    subst hd
    cases f2 <;> simp [sha256_blocks_go]
  | succ n ih =>
    intro f2 hs data h1 h2
    by_cases h64 : 64 ≤ data.length
    · obtain ⟨m, rfl⟩ : ∃ m, f2 = m + 1 := ⟨f2 - 1, by omega⟩
      simp only [sha256_blocks_go, if_pos h64]
      exact ih m _ _ (by rw [List.length_drop]; omega) (by rw [List.length_drop]; omega)
    · cases f2 with
      | zero =>
        have hd : data = [] := List.eq_nil_of_length_eq_zero (by omega)
        subst hd
        simp [sha256_blocks_go]
      | succ m => simp [sha256_blocks_go, h64]

theorem sha256_blocks_small (hs data : List Nat) (h : data.length < 64) :
    sha256_blocks hs data = (hs, data) := by
  cases data with
  | nil => rfl
  | cons c rest =>
    unfold sha256_blocks
    simp only [List.length_cons, sha256_blocks_go]
    rw [if_neg (by simp at h ⊢; omega)]

theorem sha256_blocks_step (hs data : List Nat) (h64 : 64 ≤ data.length) :
    sha256_blocks hs data =
      sha256_blocks (sha256_compress hs (data.take 64)) (data.drop 64) := by
  unfold sha256_blocks
  obtain ⟨m, hm⟩ : ∃ m, data.length = m + 1 := ⟨data.length - 1, by omega⟩
  rw [show sha256_blocks_go hs data data.length = sha256_blocks_go hs data (m + 1) by
    rw [hm]]
  simp only [sha256_blocks_go, if_pos h64]
  exact sha256_blocks_go_congr m _ _ _ (by rw [List.length_drop]; omega)
    (by rw [List.length_drop])

theorem sha256_blocks_rem_lt (n : Nat) :
    ∀ (hs data : List Nat), data.length ≤ n → (sha256_blocks hs data).2.length < 64 := by
  induction n with
  | zero =>
    intro hs data h
    have hd : data = [] := List.eq_nil_of_length_eq_zero (by omega)
    subst hd
    simp [sha256_blocks_small]
  | succ m ih =>
    intro hs data h
    by_cases hsm : data.length < 64
    · rw [sha256_blocks_small _ _ hsm]
      exact hsm
    · rw [sha256_blocks_step _ _ (by omega)]
      exact ih _ _ (by rw [List.length_drop]; omega)

theorem sha256_blocks_append (n : Nat) :
    ∀ (hs a b : List Nat), a.length ≤ n →
      sha256_blocks (sha256_blocks hs a).1 ((sha256_blocks hs a).2 ++ b) =
        sha256_blocks hs (a ++ b) := by
  induction n with
  | zero =>
    intro hs a b h
    have ha : a = [] := List.eq_nil_of_length_eq_zero (by omega)
    subst ha
    rw [sha256_blocks_small hs [] (by simp)]
  | succ m ih =>
    intro hs a b h
    by_cases hsm : a.length < 64
    · rw [sha256_blocks_small hs a hsm]
    · rw [sha256_blocks_step hs a (by omega),
        sha256_blocks_step hs (a ++ b) (by rw [List.length_append]; omega),
        List.take_append_of_le_length (by omega),
        List.drop_append_of_le_length (by omega)]
      exact ih _ _ _ (by rw [List.length_drop]; omega)

/-- `crypto_sha256_update` in closed form: the greedy block pass over
the pending buffer followed by the new data. -/
theorem crypto_sha256_update_nf (ctx : Sha256Ctx) (data : List Nat)
    (hbuf : ctx.buffer.length < 64) (htot : ctx.total < U64) :
    crypto_sha256_update ctx data =
      { h := (sha256_blocks ctx.h (ctx.buffer ++ data)).1
        buffer := (sha256_blocks ctx.h (ctx.buffer ++ data)).2
        total := (ctx.total + data.length) % U64 } := by
  obtain ⟨hh, buf, tot⟩ := ctx
  simp only at hbuf htot ⊢
  unfold crypto_sha256_update
  dsimp only
  by_cases hdata : (data : List Nat).isEmpty
  · rw [if_pos hdata]
    have hd : data = [] := by
      cases data with
      | nil => rfl
      | cons c r => exact absurd hdata (by simp)
    subst hd
    rw [List.append_nil, sha256_blocks_small hh buf hbuf]
    simp [Nat.mod_eq_of_lt htot]
  · rw [if_neg hdata]
    by_cases hbe : buf.isEmpty
    · rw [if_pos hbe]
      have hb : buf = [] := by
        cases hx : buf with
        | nil => rfl
        | cons c r => rw [hx] at hbe; exact absurd hbe (by simp)
      subst hb
      simp
    · rw [if_neg hbe]
      have hmin : (data.take (min data.length (64 - buf.length))).length =
          min data.length (64 - buf.length) := by
        rw [List.length_take]
        omega
      by_cases hfull :
          (buf ++ data.take (min data.length (64 - buf.length))).length = 64
      · rw [if_pos hfull]
        have hfull' : buf.length + min data.length (64 - buf.length) = 64 := by
          rw [List.length_append, hmin] at hfull
          exact hfull
        have htk : min data.length (64 - buf.length) = 64 - buf.length := by
          omega
        have hlen64 : 64 ≤ (buf ++ data).length := by
          rw [List.length_append]
          omega
        have hb64 : buf.take 64 = buf := List.take_of_length_le (by omega)
        have hbd : buf.drop 64 = [] := List.drop_eq_nil_of_le (by omega)
        have h1 : buf ++ data.take (min data.length (64 - buf.length)) =
            (buf ++ data).take 64 := by
          rw [htk, List.take_append_eq_append_take, hb64]
        have h2 : data.drop (min data.length (64 - buf.length)) =
            (buf ++ data).drop 64 := by
          rw [htk, List.drop_append_eq_append_drop, hbd, List.nil_append]
        rw [h1, h2, ← sha256_blocks_step hh (buf ++ data) hlen64]
      · rw [if_neg hfull]
        have hfull' : buf.length + min data.length (64 - buf.length) ≠ 64 := by
          rw [List.length_append, hmin] at hfull
          exact hfull
        have htk : min data.length (64 - buf.length) = data.length := by
          omega
        have hsmall : (buf ++ data).length < 64 := by
          rw [List.length_append]
          omega
        rw [htk, List.take_length, sha256_blocks_small hh (buf ++ data) hsmall]


/-- Streaming invariance of the source's `crypto_sha256_update`. -/
theorem sha256_update_append (ctx : Sha256Ctx) (a b : List Nat)
    (hbuf : ctx.buffer.length < 64) (htot : ctx.total < U64) :
    crypto_sha256_update (crypto_sha256_update ctx a) b =
      crypto_sha256_update ctx (a ++ b) := by
  rw [crypto_sha256_update_nf ctx a hbuf htot]
  rw [crypto_sha256_update_nf _ b
    (sha256_blocks_rem_lt (ctx.buffer ++ a).length ctx.h (ctx.buffer ++ a) (le_refl _))
    (Nat.mod_lt _ (by decide))]
  rw [crypto_sha256_update_nf ctx (a ++ b) hbuf htot]
  dsimp only
  rw [sha256_blocks_append (ctx.buffer ++ a).length ctx.h (ctx.buffer ++ a) b (le_refl _)]
  rw [List.append_assoc]
  rw [Nat.mod_add_mod, List.length_append, Nat.add_assoc]

/-! The FIPS 180-4 reference, written from the standard's words: the
correct constant table (`K[60] = 0x90BEFFFA`), the padded message, and
one compression per 64-byte chunk. -/

/-- The 64 SHA-256 round constants of FIPS 180-4 §4.2.2. -/
def sha256_fips_k : List Nat :=
  [0x428A2F98, 0x71374491, 0xB5C0FBCF, 0xE9B5DBA5,
   0x3956C25B, 0x59F111F1, 0x923F82A4, 0xAB1C5ED5,
   0xD807AA98, 0x12835B01, 0x243185BE, 0x550C7DC3,
   0x72BE5D74, 0x80DEB1FE, 0x9BDC06A7, 0xC19BF174,
   0xE49B69C1, 0xEFBE4786, 0x0FC19DC6, 0x240CA1CC,
   0x2DE92C6F, 0x4A7484AA, 0x5CB0A9DC, 0x76F988DA,
   0x983E5152, 0xA831C66D, 0xB00327C8, 0xBF597FC7,
   0xC6E00BF3, 0xD5A79147, 0x06CA6351, 0x14292967,
   0x27B70A85, 0x2E1B2138, 0x4D2C6DFC, 0x53380D13,
   0x650A7354, 0x766A0ABB, 0x81C2C92E, 0x92722C85,
   0xA2BFE8A1, 0xA81A664B, 0xC24B8B70, 0xC76C51A3,
   0xD192E819, 0xD6990624, 0xF40E3585, 0x106AA070,
   0x19A4C116, 0x1E376C08, 0x2748774C, 0x34B0BCB5,
   0x391C0CB3, 0x4ED8AA4A, 0x5B9CCA4F, 0x682E6FF3,
   0x748F82EE, 0x78A5636F, 0x84C87814, 0x8CC70208,
   0x90BEFFFA, 0xA4506CEB, 0xBEF9A3F7, 0xC67178F2]

/-- One FIPS compression: as the source's round function, but with the
standard's constant table. -/
def sha256_fips_compress (hs : List Nat) (block : List Nat) : List Nat :=
  let w := sha256_schedule block
  let fin := List.foldl
    (fun st i => sha256_round st (sha256_fips_k.getD i 0) (w.getD i 0))
    hs (List.range 64)
  List.zipWith (fun a b => (a + b) % U32) hs fin

/-- FIPS 180-4 §5.1.1 padding: `0x80`, zeros to 56 mod 64, then the
64-bit big-endian bit length. -/
def sha256_fips_pad (msg : List Nat) : List Nat :=
  msg ++ [0x80] ++ List.replicate ((119 - msg.length % 64) % 64) 0 ++
    be64bytes ((msg.length * 8) % U64)

/-- Fold the FIPS compression over the 64-byte chunks of the padded
message. -/
def sha256_fips_go (hs : List Nat) (data : List Nat) : Nat → List Nat
  | 0 => hs
  | fuel + 1 =>
    if data.isEmpty then hs
    else sha256_fips_go (sha256_fips_compress hs (data.take 64)) (data.drop 64) fuel

/-- The FIPS 180-4 SHA-256 digest of a byte sequence. -/
def sha256_fips (msg : List Nat) : List Nat :=
  let p := sha256_fips_pad msg
  sha256_digest_bytes (sha256_fips_go sha256_initial_state p p.length)

set_option maxRecDepth 1000000 in
/-- C7: the source's `crypto_sha256_update` is streaming-invariant —
feeding `a` then `b` equals feeding `a ++ b` from any reachable context
(pending buffer shorter than a block, wrapped total) — but the digest it
produces is not FIPS 180-4 SHA-256: the reference digest of `"abc"` is
the published test vector, while the source, whose `K[60]` constant
reads `0x90BEFFF9` instead of the standard's `0x90BEFFFA`, produces a
different digest for `"abc"`. -/
theorem c7_sha256_streaming_but_not_fips :
    (∀ (ctx : Sha256Ctx) (a b : List Nat),
      ctx.buffer.length < 64 → ctx.total < U64 →
      crypto_sha256_update (crypto_sha256_update ctx a) b =
        crypto_sha256_update ctx (a ++ b)) ∧
    sha256_fips (ascii "abc") =
      [0xba, 0x78, 0x16, 0xbf, 0x8f, 0x01, 0xcf, 0xea,
       0x41, 0x41, 0x40, 0xde, 0x5d, 0xae, 0x22, 0x23,
       0xb0, 0x03, 0x61, 0xa3, 0x96, 0x17, 0x7a, 0x9c,
       0xb4, 0x10, 0xff, 0x61, 0xf2, 0x00, 0x15, 0xad] ∧
    (crypto_sha256_final
        (crypto_sha256_update crypto_sha256_init (ascii "abc"))).1 ≠
      sha256_fips (ascii "abc") ∧
    sha256_k.getD 60 0 ≠ sha256_fips_k.getD 60 0 :=
  ⟨sha256_update_append, by decide, by decide, by decide⟩

end ZeroBoot
